import Mathlib

/-!
# Servo trigger motion engine (`G2G_FSM`)

A shallow embedding of `G2G_FSM.cpp` / `G2G_FSM.h`: the interpolation table, the
delta calculator, the phasor advancer, the phasor scaler, the three mode state
machines and the dispatcher, followed by theorems about them.

Conventions of the embedding.
* C integers are `Int`; every place where C stores into, or computes in, a
  fixed-width signed type carries an explicit two's-complement reduction
  (`wrap16`, `wrap32`), and the conversion to `uint8_t` is `wrapU8`.
* The enumerations `FSM_MODE` and `SERVO_STATE` are their integer codes
  (`Nat`), so that a `switch` keeps its `default` branch.
* A member function that mutates `fsm_status[servoID]` becomes a function from
  the channel record to the new channel record; `calcNextPhasor`, which also
  returns a `bool`, returns the pair.
-/

namespace G2G_FSM

/-! ## Machine arithmetic -/

/-- Conversion of an integer to `int16_t` (two's complement). -/
def wrap16 (x : Int) : Int := (x + 32768) % 65536 - 32768

/-- Conversion of an integer to `int32_t` (two's complement). -/
def wrap32 (x : Int) : Int := (x + 2147483648) % 4294967296 - 2147483648

/-- Conversion of an integer to `uint8_t`. -/
def wrapU8 (x : Int) : Int := x % 256

/-! ## Constants and types (`G2G_FSM.cpp` lines 20-47, `G2G_FSM.h`) -/

/-- The constant `PHASOR_MAX = 0x0000ffff`. -/
def PHASOR_MAX : Int := 0x0000ffff

/-- The constant `ADC_MAX = 0x0000ffff`. -/
def ADC_MAX : Int := 0x0000ffff

/-- The constant `PWM_MIN_USEC = 1000`. -/
def PWM_MIN_USEC : Int := 1000

/-- The constant `PWM_RANGE_USEC = 1000`. -/
def PWM_RANGE_USEC : Int := 1000

/-- The table `timelut[17]` of per-tick step sizes. -/
def timelut : List Int :=
  [437,  583,   749,   1049,
   1311, 1748,  2185,  2621,
   3277, 4369,  5243,  6554,
   8738, 10923, 13107, 16384,
   26214]

/-- The enumeration `FSM_MODE`, as its integer code. -/
abbrev FSM_MODE := Nat

/-- Enumerator `ASTABLE = 0`. -/
@[match_pattern] def ASTABLE : FSM_MODE := 0
/-- Enumerator `BISTABLE = 1`. -/
@[match_pattern] def BISTABLE : FSM_MODE := 1
/-- Enumerator `ONESHOT = 2`. -/
@[match_pattern] def ONESHOT : FSM_MODE := 2

/-- The enumeration `SERVO_STATE`, as its integer code. -/
abbrev SERVO_STATE := Nat

/-- Enumerator `eIDLE = 0`. -/
@[match_pattern] def eIDLE : SERVO_STATE := 0
/-- Enumerator `eATOB = 1`. -/
@[match_pattern] def eATOB : SERVO_STATE := 1
/-- Enumerator `eATTOP = 2`. -/
@[match_pattern] def eATTOP : SERVO_STATE := 2
/-- Enumerator `eBTOA = 3`. -/
@[match_pattern] def eBTOA : SERVO_STATE := 3
/-- Enumerator `eWAIT_TO_RESET = 4`. -/
@[match_pattern] def eWAIT_TO_RESET : SERVO_STATE := 4

/-- The channel record `FSM_STATUS`. -/
structure FSM_STATUS where
  positionA : Int
  positionB : Int
  travelTime : Int
  rising : Bool
  trigger : Bool
  attached : Bool
  fsmMode : FSM_MODE
  servo_state : SERVO_STATE
  phasor : Int
  us_val : Int
  deriving DecidableEq, Repr

/-! ## `calcDelta` (lines 227-249) -/

/-- The table index `uint8_t idx = travelTime >> 12`. -/
def calcIdx (s : FSM_STATUS) : Nat := (wrapU8 (s.travelTime >>> (12 : Nat))).toNat

/-- The step size of `calcDelta`: table lookup and 16-way linear interpolation. A read
outside the table yields 0 here; `calcIdx s + 1` is shown to lie inside the table for
every `travelTime` in `[0, 65535]`. -/
def calcDelta (s : FSM_STATUS) : Int :=
  let idx := calcIdx s
  let val := timelut.getD idx 0
  -- int16_t window = timelut[idx+1] - timelut[idx];
  let window := wrap16 (timelut.getD (idx + 1) 0 - timelut.getD idx 0)
  -- window >>= 4;
  let window := window >>> (4 : Nat)
  -- window *= ((travelTime & 0x00000f00) >> 8);   (product in int32_t, stored in int16_t)
  let window := wrap16 (wrap32 (window * ((Int.land s.travelTime 0x00000f00) >>> (8 : Nat))))
  -- return val + window;
  wrap16 (val + window)

/-- The arithmetic of `calcDelta` as a function of the table index and of the
interpolation nibble `(travelTime & 0x0f00) >> 8`; `calcDelta` is shown equal to it. -/
def deltaOf (idx frac : Nat) : Int :=
  wrap16 (timelut.getD idx 0 +
    wrap16 (wrap32
      ((wrap16 (timelut.getD (idx + 1) 0 - timelut.getD idx 0) >>> (4 : Nat)) * (frac : Int))))

/-! ## `calcNextPhasor` (lines 268-293) -/

/-- The phasor after the addition or subtraction of `calcNextPhasor`, computed in the
integers, before any clamping. -/
def unclamped (s : FSM_STATUS) (increment : Int) : Int :=
  if s.rising then s.phasor + increment else s.phasor - increment

/-- The phasor advance: returns the `bool` result and the updated channel record. -/
def calcNextPhasor (s : FSM_STATUS) (increment : Int) : Bool × FSM_STATUS :=
  let s1 : FSM_STATUS :=
    if s.rising then { s with phasor := wrap32 (s.phasor + increment) }
    else { s with phasor := wrap32 (s.phasor - increment) }
  if s1.phasor > PHASOR_MAX then (true, { s1 with phasor := PHASOR_MAX })
  else if s1.phasor < 0 then (true, { s1 with phasor := 0 })
  else (false, s1)

/-! ## `scalePhasor` (lines 304-330) -/

/-- The phasor scaler; `int32_t` intermediate values, C division (truncating toward
zero), `int16_t` result. -/
def scalePhasor (s : FSM_STATUS) : Int :=
  let range := wrap32 (s.positionB - s.positionA)
  let offset := s.positionA
  let range := Int.tdiv (wrap32 (range * PWM_RANGE_USEC)) ADC_MAX
  let offset := Int.tdiv (wrap32 (offset * PWM_RANGE_USEC)) ADC_MAX
  let result := Int.tdiv (wrap32 (s.phasor * range)) PHASOR_MAX
  let result := wrap32 (result + offset)
  wrap16 result

/-! ## The mode state machines (lines 339-579) -/

/-- The state machine `oneshotFSM`. -/
def oneshotFSM (s : FSM_STATUS) : FSM_STATUS :=
  let delta := calcDelta s
  let s1 : FSM_STATUS :=
    match s.servo_state with
    | eIDLE =>
      if s.trigger = true then { s with servo_state := eATOB, rising := true } else s
    | eATOB =>
      let r := calcNextPhasor s delta
      if r.1 then { r.2 with servo_state := eBTOA, rising := false } else r.2
    | eATTOP => { s with servo_state := eBTOA, rising := false }
    | eBTOA =>
      let r := calcNextPhasor s delta
      if r.1 then { r.2 with servo_state := eWAIT_TO_RESET } else r.2
    | eWAIT_TO_RESET =>
      if !s.trigger then { s with servo_state := eIDLE } else s
    | _ => s
  { s1 with us_val := scalePhasor s1 }

/-- The state machine `astableFSM`. -/
def astableFSM (s : FSM_STATUS) : FSM_STATUS :=
  let delta := calcDelta s
  let s1 : FSM_STATUS :=
    match s.servo_state with
    | eIDLE =>
      if s.trigger = true then { s with servo_state := eATOB, rising := true } else s
    | eATOB =>
      if s.trigger = false then { s with servo_state := eIDLE, rising := false }
      else
        let r := calcNextPhasor s delta
        if r.1 then { r.2 with servo_state := eBTOA, rising := false } else r.2
    | eATTOP =>
      let s2 : FSM_STATUS :=
        if s.trigger = false then { s with servo_state := eIDLE, rising := false } else s
      -- Just fall through
      { s2 with servo_state := eBTOA, rising := false }
    | eBTOA =>
      if s.trigger = false then { s with servo_state := eIDLE, rising := false }
      else
        let r := calcNextPhasor s delta
        if r.1 then { r.2 with servo_state := eATOB, rising := true } else r.2
    | _ => s
  { s1 with us_val := scalePhasor s1 }

/-- The state machine `bistableFSM`. -/
def bistableFSM (s : FSM_STATUS) : FSM_STATUS :=
  let delta := calcDelta s
  let s1 : FSM_STATUS :=
    match s.servo_state with
    | eIDLE =>
      if s.trigger = true then { s with servo_state := eATOB, rising := true } else s
    | eATOB =>
      -- Switch released early
      let s2 : FSM_STATUS :=
        if s.trigger = false then { s with servo_state := eBTOA, rising := false } else s
      -- climbing up to b
      let r := calcNextPhasor s2 delta
      if r.1 then { r.2 with servo_state := eATTOP } else r.2
    | eATTOP =>
      if s.trigger = false then { s with servo_state := eBTOA, rising := false } else s
    | eBTOA =>
      -- Switch re-closed before reaching A
      let s2 : FSM_STATUS :=
        if s.trigger = true then { s with servo_state := eATOB, rising := true } else s
      -- dropping down to A
      let r := calcNextPhasor s2 delta
      if r.1 then { r.2 with servo_state := eIDLE } else r.2
    | _ => s
  { s1 with us_val := scalePhasor s1 }

/-! ## `calculate` (lines 189-216) -/

/-- The dispatcher `calculate`: one tick of one channel. -/
def calculate (s : FSM_STATUS) : FSM_STATUS :=
  match s.fsmMode with
  | ASTABLE => astableFSM s
  | BISTABLE => bistableFSM s
  | ONESHOT => oneshotFSM s
  | _ => s

/-! ## Ticks driven by sampled inputs -/

/-- The fields of a channel record that are written from outside between two ticks. -/
structure Inputs where
  positionA : Int
  positionB : Int
  travelTime : Int
  trigger : Bool
  fsmMode : FSM_MODE
  deriving DecidableEq, Repr

/-- Modelled from the spec: the external sampler, which is not part of `G2G_FSM.cpp`,
"updates position/travel-time/trigger fields" (and the mode) of the channel record before
each tick; no other field is written from outside. -/
def sample (i : Inputs) (s : FSM_STATUS) : FSM_STATUS :=
  { s with positionA := i.positionA, positionB := i.positionB, travelTime := i.travelTime,
           trigger := i.trigger, fsmMode := i.fsmMode }

/-- One tick: the inputs are sampled, then `calculate` runs. -/
def tick (s : FSM_STATUS) (i : Inputs) : FSM_STATUS := calculate (sample i s)

/-- A sequence of ticks, one per element of the input list, oldest first. -/
def run (s : FSM_STATUS) (ins : List Inputs) : FSM_STATUS := ins.foldl tick s

/-- The inputs are in the ranges the spec gives them. -/
def Inputs.InRange (i : Inputs) : Prop :=
  0 ≤ i.positionA ∧ i.positionA ≤ 65535 ∧ 0 ≤ i.positionB ∧ i.positionB ≤ 65535 ∧
  0 ≤ i.travelTime ∧ i.travelTime ≤ 65535 ∧
  (i.fsmMode = ASTABLE ∨ i.fsmMode = BISTABLE ∨ i.fsmMode = ONESHOT)

instance (i : Inputs) : Decidable i.InRange := by
  unfold Inputs.InRange; infer_instance

/-- The shape of a one-shot excursion with per-tick step `d` whose rising half takes `k`
ticks: where the channel `x` is `n` ticks after the trigger found it in IDLE with phasor
0 (used to state and prove the tick count of the excursion). -/
def OneshotAt (d : Int) (k n : Nat) (x : FSM_STATUS) : Prop :=
  (n = 0 ∧ x.servo_state = eIDLE ∧ x.phasor = 0) ∨
  (1 ≤ n ∧ n ≤ k ∧ x.servo_state = eATOB ∧ x.rising = true ∧
    x.phasor = ((n - 1 : Nat) : Int) * d) ∨
  (k + 1 ≤ n ∧ n ≤ 2 * k ∧ x.servo_state = eBTOA ∧ x.rising = false ∧
    x.phasor = 65535 - ((n - (k + 1) : Nat) : Int) * d) ∨
  (n = 2 * k + 1 ∧ x.servo_state = eWAIT_TO_RESET ∧ x.phasor = 0)

instance (d : Int) (k n : Nat) (x : FSM_STATUS) : Decidable (OneshotAt d k n x) := by
  unfold OneshotAt; infer_instance

/-! ## `attachServoFSM` and `detachServoFSM` (lines 122-176) -/

/-- The object state that attaching and detaching touch: the two channel records
`fsm_status[2]` and the 8-bit port-B data-direction register `DDRB` (a hardware register
of the target, declared outside this repository; here its current value). -/
structure Controller where
  fsm_status0 : FSM_STATUS
  fsm_status1 : FSM_STATUS
  DDRB : Nat
  deriving DecidableEq, Repr

/-- The function `attachServoFSM`: returns the `bool` result and the updated object
state. `B00000010` and `B00000100` are the binary constants 2 and 4. -/
def attachServoFSM (servoID : Nat) (g : Controller) : Bool × Controller :=
  if servoID < 2 then
    if servoID = 0 then
      (true, { g with DDRB := g.DDRB ||| 0b00000010,
                      fsm_status0 := { g.fsm_status0 with attached := true } })
    else if servoID = 1 then
      (true, { g with DDRB := g.DDRB ||| 0b00000100,
                      fsm_status1 := { g.fsm_status1 with attached := true } })
    else (false, g)
  else (false, g)

/-- The function `detachServoFSM`: returns the `bool` result and the updated object
state. `~(1<<1)` and `~(1<<2)`, stored back into the 8-bit register, are the masks
`0b11111101` and `0b11111011`. -/
def detachServoFSM (servoID : Nat) (g : Controller) : Bool × Controller :=
  if servoID < 2 then
    if servoID = 0 then
      (true, { g with DDRB := g.DDRB &&& 0b11111101,
                      fsm_status0 := { g.fsm_status0 with attached := false } })
    else if servoID = 1 then
      (true, { g with DDRB := g.DDRB &&& 0b11111011,
                      fsm_status1 := { g.fsm_status1 with attached := false } })
    else (false, g)
  else (false, g)

/-- The direction flag agrees with the sweep state: rising in A_TO_B, falling in
B_TO_A. -/
def DirectionOK (s : FSM_STATUS) : Prop :=
  (s.servo_state = eATOB → s.rising = true) ∧ (s.servo_state = eBTOA → s.rising = false)

instance (s : FSM_STATUS) : Decidable (DirectionOK s) := by
  unfold DirectionOK; infer_instance

/-- The shape of a bistable rise with per-tick step `d` that takes `k` ticks: where the
channel `x` is `n` ticks after the trigger found it in IDLE with phasor 0, while the
trigger stays true (used to state and prove the tick count of the rise). -/
def BistableRiseAt (d : Int) (k n : Nat) (x : FSM_STATUS) : Prop :=
  (n = 0 ∧ x.servo_state = eIDLE ∧ x.phasor = 0) ∨
  (1 ≤ n ∧ n ≤ k ∧ x.servo_state = eATOB ∧ x.rising = true ∧
    x.phasor = ((n - 1 : Nat) : Int) * d) ∨
  (k + 1 ≤ n ∧ x.servo_state = eATTOP ∧ x.phasor = 65535)

instance (d : Int) (k n : Nat) (x : FSM_STATUS) : Decidable (BistableRiseAt d k n x) := by
  unfold BistableRiseAt; infer_instance

/-! ## Example channel records and inputs -/

/-- A zeroed channel record (a `G2G_FSM` object with static storage before its first
tick), with the mode as given: state IDLE, phasor 0. -/
def initChannel (m : FSM_MODE) : FSM_STATUS :=
  { positionA := 0, positionB := 0, travelTime := 0, rising := false, trigger := false,
    attached := false, fsmMode := m, servo_state := eIDLE, phasor := 0, us_val := 0 }

/-- A channel record with the full position range `A = 0`, `B = 65535`, detached, with
the given mode, state, direction, trigger level, travel time and phasor. -/
def channelAt (m : FSM_MODE) (st : SERVO_STATE) (rising trig : Bool) (t phasor : Int) :
    FSM_STATUS :=
  { positionA := 0, positionB := 65535, travelTime := t, rising := rising, trigger := trig,
    attached := false, fsmMode := m, servo_state := st, phasor := phasor, us_val := 0 }

/-- Inputs with the full position range `A = 0`, `B = 65535`. -/
def fullRange (t : Int) (trig : Bool) (m : FSM_MODE) : Inputs :=
  { positionA := 0, positionB := 65535, travelTime := t, trigger := trig, fsmMode := m }

/-! # Theorems -/

set_option maxRecDepth 100000

/-! ## Machine arithmetic -/

theorem wrap16_range (x : Int) : -32768 ≤ wrap16 x ∧ wrap16 x ≤ 32767 := by
  unfold wrap16; omega

theorem wrap16_id (x : Int) (h0 : -32768 ≤ x) (h1 : x ≤ 32767) : wrap16 x = x := by
  unfold wrap16; omega

theorem wrap32_id (x : Int) (h0 : -2147483648 ≤ x) (h1 : x ≤ 2147483647) : wrap32 x = x := by
  unfold wrap32; omega

theorem nat_and_f00 (n : Nat) : (n &&& 0xf00) >>> 8 = n / 256 % 16 := by
  have h1 : (n &&& 0xf00) >>> 8 = (n >>> 8) &&& (2 ^ 4 - 1) := by
    apply Nat.eq_of_testBit_eq
    intro j
    have h15 : (2 ^ 4 - 1 : Nat) = 0xf00 >>> 8 := by decide
    rw [h15]
    simp only [Nat.testBit_shiftRight, Nat.testBit_and]
  rw [h1, Nat.and_pow_two_sub_one_eq_mod, Nat.shiftRight_eq_div_pow]

theorem int_land_f00 (t : Int) (h : 0 ≤ t) :
    (Int.land t 0x00000f00) >>> (8 : Nat) = t / 256 % 16 := by
  obtain ⟨n, rfl⟩ := Int.eq_ofNat_of_zero_le h
  have e : Int.land (n : Int) 0x00000f00 = ((n &&& 0xf00 : Nat) : Int) := rfl
  rw [e, Int.shiftRight_eq_div_pow]
  have h2 := nat_and_f00 n
  rw [Nat.shiftRight_eq_div_pow] at h2
  omega

theorem int_land_15 (t : Int) (h : 0 ≤ t) : Int.land (t >>> (8 : Nat)) 15 = t / 256 % 16 := by
  obtain ⟨n, rfl⟩ := Int.eq_ofNat_of_zero_le h
  rw [Int.shiftRight_eq_div_pow]
  have e : ((n : Int) / ((2 ^ 8 : Nat) : Int)) = ((n / 256 : Nat) : Int) := by omega
  rw [e]
  have e2 : Int.land ((n / 256 : Nat) : Int) 15 = (((n / 256) &&& (2 ^ 4 - 1) : Nat) : Int) := rfl
  rw [e2, Nat.and_pow_two_sub_one_eq_mod]
  omega

/-! ## `calcDelta` -/

theorem deltaOf_table : ∀ idx : Fin 16, ∀ frac : Fin 16,
    deltaOf idx frac = timelut.getD idx 0 +
        (frac : Int) * ((timelut.getD (idx + 1) 0 - timelut.getD idx 0) >>> (4 : Nat)) ∧
      437 ≤ deltaOf idx frac ∧ deltaOf idx frac ≤ 25594 := by
  decide

theorem calcIdx_eq (s : FSM_STATUS) (h0 : 0 ≤ s.travelTime) (h1 : s.travelTime ≤ 65535) :
    calcIdx s = (s.travelTime / 4096).toNat ∧ calcIdx s < 16 := by
  unfold calcIdx wrapU8
  rw [Int.shiftRight_eq_div_pow]
  have e : (((2 : Nat) ^ 12 : Nat) : Int) = 4096 := by norm_num
  rw [e]
  omega

theorem calcDelta_eq_deltaOf (s : FSM_STATUS) (h0 : 0 ≤ s.travelTime)
    (h1 : s.travelTime ≤ 65535) :
    calcDelta s = deltaOf (s.travelTime / 4096).toNat (s.travelTime / 256 % 16).toNat := by
  unfold calcDelta deltaOf
  rw [(calcIdx_eq s h0 h1).1, int_land_f00 _ h0]
  have e : ((s.travelTime / 256 % 16).toNat : Int) = s.travelTime / 256 % 16 := by omega
  simp only [e]

theorem calcDelta_int16 (s : FSM_STATUS) : -32768 ≤ calcDelta s ∧ calcDelta s ≤ 32767 := by
  unfold calcDelta; exact wrap16_range _

theorem calcDelta_bounds (s : FSM_STATUS) (h0 : 0 ≤ s.travelTime) (h1 : s.travelTime ≤ 65535) :
    437 ≤ calcDelta s ∧ calcDelta s ≤ 25594 := by
  rw [calcDelta_eq_deltaOf s h0 h1]
  have hi : (s.travelTime / 4096).toNat < 16 := by omega
  have hf : (s.travelTime / 256 % 16).toNat < 16 := by omega
  exact (deltaOf_table ⟨_, hi⟩ ⟨_, hf⟩).2

theorem calcDelta_congr (s r : FSM_STATUS) (h : s.travelTime = r.travelTime) :
    calcDelta s = calcDelta r := by
  unfold calcDelta calcIdx
  rw [h]

/-! ## `calcNextPhasor` -/

theorem calcNextPhasor_eq (s : FSM_STATUS) (d : Int)
    (hp0 : 0 ≤ s.phasor) (hp1 : s.phasor ≤ 65535) (hd0 : -32768 ≤ d) (hd1 : d ≤ 32767) :
    calcNextPhasor s d =
      (decide (unclamped s d > 65535 ∨ unclamped s d < 0),
       { s with phasor := max 0 (min (unclamped s d) 65535) }) := by
  unfold calcNextPhasor PHASOR_MAX unclamped
  cases hr : s.rising
  · have e : wrap32 (s.phasor - d) = s.phasor - d := wrap32_id _ (by omega) (by omega)
    simp only [Bool.false_eq_true, if_false, e]
    by_cases h1 : s.phasor - d > 65535
    · simp [h1]; omega
    · by_cases h2 : s.phasor - d < 0
      · simp [h1, h2]; omega
      · simp [h1, h2]; omega
  · have e : wrap32 (s.phasor + d) = s.phasor + d := wrap32_id _ (by omega) (by omega)
    simp only [if_true, e]
    by_cases h1 : s.phasor + d > 65535
    · simp [h1]; omega
    · by_cases h2 : s.phasor + d < 0
      · simp [h1, h2]; omega
      · simp [h1, h2]; omega

theorem calcNextPhasor_phasor_range (s : FSM_STATUS) (d : Int)
    (hp0 : 0 ≤ s.phasor) (hp1 : s.phasor ≤ 65535) (hd0 : -32768 ≤ d) (hd1 : d ≤ 32767) :
    0 ≤ (calcNextPhasor s d).2.phasor ∧ (calcNextPhasor s d).2.phasor ≤ 65535 := by
  rw [calcNextPhasor_eq s d hp0 hp1 hd0 hd1]
  simp only []
  omega

/-! ## The phasor stays in range -/

theorem oneshotFSM_phasor_range (s : FSM_STATUS) (hp0 : 0 ≤ s.phasor) (hp1 : s.phasor ≤ 65535) :
    0 ≤ (oneshotFSM s).phasor ∧ (oneshotFSM s).phasor ≤ 65535 := by
  have hd := calcDelta_int16 s
  have key : ∀ s2 : FSM_STATUS, s2.phasor = s.phasor →
      0 ≤ (calcNextPhasor s2 (calcDelta s)).2.phasor ∧
        (calcNextPhasor s2 (calcDelta s)).2.phasor ≤ 65535 := fun s2 h2 =>
    calcNextPhasor_phasor_range s2 _ (h2 ▸ hp0) (h2 ▸ hp1) hd.1 hd.2
  unfold oneshotFSM
  split <;> simp only [apply_ite FSM_STATUS.phasor, ite_self] <;>
    first
    | exact ⟨hp0, hp1⟩
    | exact key _ (by simp only [apply_ite FSM_STATUS.phasor, ite_self])

theorem astableFSM_phasor_range (s : FSM_STATUS) (hp0 : 0 ≤ s.phasor) (hp1 : s.phasor ≤ 65535) :
    0 ≤ (astableFSM s).phasor ∧ (astableFSM s).phasor ≤ 65535 := by
  have hd := calcDelta_int16 s
  have key : ∀ s2 : FSM_STATUS, s2.phasor = s.phasor →
      0 ≤ (calcNextPhasor s2 (calcDelta s)).2.phasor ∧
        (calcNextPhasor s2 (calcDelta s)).2.phasor ≤ 65535 := fun s2 h2 =>
    calcNextPhasor_phasor_range s2 _ (h2 ▸ hp0) (h2 ▸ hp1) hd.1 hd.2
  unfold astableFSM
  split <;> simp only [apply_ite FSM_STATUS.phasor, ite_self] <;>
    first
    | exact ⟨hp0, hp1⟩
    | exact key _ (by simp only [apply_ite FSM_STATUS.phasor, ite_self])
    | (split <;> first | exact ⟨hp0, hp1⟩ | exact key _ rfl)

theorem bistableFSM_phasor_range (s : FSM_STATUS) (hp0 : 0 ≤ s.phasor)
    (hp1 : s.phasor ≤ 65535) :
    0 ≤ (bistableFSM s).phasor ∧ (bistableFSM s).phasor ≤ 65535 := by
  have hd := calcDelta_int16 s
  have key : ∀ s2 : FSM_STATUS, s2.phasor = s.phasor →
      0 ≤ (calcNextPhasor s2 (calcDelta s)).2.phasor ∧
        (calcNextPhasor s2 (calcDelta s)).2.phasor ≤ 65535 := fun s2 h2 =>
    calcNextPhasor_phasor_range s2 _ (h2 ▸ hp0) (h2 ▸ hp1) hd.1 hd.2
  unfold bistableFSM
  split <;> simp only [apply_ite FSM_STATUS.phasor, ite_self] <;>
    first
    | exact ⟨hp0, hp1⟩
    | exact key _ (by simp only [apply_ite FSM_STATUS.phasor, ite_self])

theorem calculate_phasor_range (s : FSM_STATUS) (hp0 : 0 ≤ s.phasor) (hp1 : s.phasor ≤ 65535) :
    0 ≤ (calculate s).phasor ∧ (calculate s).phasor ≤ 65535 := by
  unfold calculate
  split
  · exact astableFSM_phasor_range s hp0 hp1
  · exact bistableFSM_phasor_range s hp0 hp1
  · exact oneshotFSM_phasor_range s hp0 hp1
  · exact ⟨hp0, hp1⟩

theorem run_nil (s : FSM_STATUS) : run s [] = s := rfl

theorem run_cons (s : FSM_STATUS) (i : Inputs) (ins : List Inputs) :
    run s (i :: ins) = run (tick s i) ins := rfl

theorem run_append (s : FSM_STATUS) (xs ys : List Inputs) :
    run s (xs ++ ys) = run (run s xs) ys := by
  unfold run
  exact List.foldl_append _ _ _ _

theorem run_snoc (s : FSM_STATUS) (xs : List Inputs) (i : Inputs) :
    run s (xs ++ [i]) = tick (run s xs) i := by
  rw [run_append]; rfl

theorem run_phasor_range (ins : List Inputs) :
    ∀ s : FSM_STATUS, 0 ≤ s.phasor → s.phasor ≤ 65535 →
      0 ≤ (run s ins).phasor ∧ (run s ins).phasor ≤ 65535 := by
  induction ins with
  | nil => intro s h0 h1; exact ⟨h0, h1⟩
  | cons i rest ih =>
    intro s h0 h1
    rw [run_cons]
    have h := calculate_phasor_range (sample i s) h0 h1
    exact ih (tick s i) h.1 h.2

/-- C1: for every mode among ASTABLE, BISTABLE and ONESHOT, every servo state, trigger
and rising value, every travelTime, positionA and positionB in [0, 65535] and every phasor
in [0, PHASOR_MAX], the phasor is again in [0, PHASOR_MAX] after one call of `calculate`,
and it is still in [0, PHASOR_MAX] after any sequence of ticks whose sampled inputs are in
range. -/
theorem C1_phasor_stays_in_range (s : FSM_STATUS) (ins : List Inputs)
    (_hm : s.fsmMode = ASTABLE ∨ s.fsmMode = BISTABLE ∨ s.fsmMode = ONESHOT)
    (_ht : 0 ≤ s.travelTime ∧ s.travelTime ≤ 65535)
    (_ha : 0 ≤ s.positionA ∧ s.positionA ≤ 65535)
    (_hb : 0 ≤ s.positionB ∧ s.positionB ≤ 65535)
    (hp : 0 ≤ s.phasor ∧ s.phasor ≤ PHASOR_MAX)
    (_hins : ∀ i ∈ ins, i.InRange) :
    (0 ≤ (calculate s).phasor ∧ (calculate s).phasor ≤ PHASOR_MAX) ∧
    (0 ≤ (run s ins).phasor ∧ (run s ins).phasor ≤ PHASOR_MAX) :=
  ⟨calculate_phasor_range s hp.1 hp.2, run_phasor_range ins s hp.1 hp.2⟩

/-- C1, at a channel one step below the top of a rising one-shot sweep, followed by a
tick in each of the three modes. -/
theorem C1_phasor_stays_in_range_witness :
    (0 ≤ (calculate (channelAt ONESHOT eATOB true true 0 65000)).phasor ∧
      (calculate (channelAt ONESHOT eATOB true true 0 65000)).phasor ≤ PHASOR_MAX) ∧
    (0 ≤ (run (channelAt ONESHOT eATOB true true 0 65000)
            [fullRange 0 true ONESHOT, fullRange 65535 false BISTABLE,
             fullRange 4096 true ASTABLE]).phasor ∧
      (run (channelAt ONESHOT eATOB true true 0 65000)
            [fullRange 0 true ONESHOT, fullRange 65535 false BISTABLE,
             fullRange 4096 true ASTABLE]).phasor ≤ PHASOR_MAX) :=
  C1_phasor_stays_in_range (channelAt ONESHOT eATOB true true 0 65000)
    [fullRange 0 true ONESHOT, fullRange 65535 false BISTABLE, fullRange 4096 true ASTABLE]
    (by decide) (by decide) (by decide) (by decide) (by decide)
    (by
      intro i hi
      simp only [List.mem_cons, List.mem_singleton, List.not_mem_nil, or_false] at hi
      rcases hi with rfl | rfl | rfl <;>
        simp [Inputs.InRange, fullRange, ASTABLE, BISTABLE, ONESHOT])

/-- C2: for every phasor in [0, 65535], every rising flag and every signed 16-bit
increment `d`, with `u = phasor + d` when rising and `u = phasor - d` otherwise,
`calcNextPhasor` changes nothing but the phasor, which becomes `u` clamped to
[0, 65535], and it returns true exactly when `u > 65535` or `u < 0`. -/
theorem C2_calcNextPhasor_clamps (s : FSM_STATUS) (d : Int)
    (hp : 0 ≤ s.phasor ∧ s.phasor ≤ 65535) (hd : -32768 ≤ d ∧ d ≤ 32767) :
    (calcNextPhasor s d).2 = { s with phasor := max 0 (min (unclamped s d) 65535) } ∧
    ((calcNextPhasor s d).1 = true ↔ (unclamped s d > 65535 ∨ unclamped s d < 0)) := by
  rw [calcNextPhasor_eq s d hp.1 hp.2 hd.1 hd.2]
  simp

/-- C2, at a rising channel with phasor 65000 and increment 535: the sum is exactly
65535, the phasor lands on 65535 and the segment is reported as in progress. -/
theorem C2_calcNextPhasor_clamps_witness :
    (calcNextPhasor (channelAt ONESHOT eATOB true true 0 65000) 535).2 =
      channelAt ONESHOT eATOB true true 0 65535 ∧
    (calcNextPhasor (channelAt ONESHOT eATOB true true 0 65000) 535).1 = false := by
  have h := C2_calcNextPhasor_clamps (channelAt ONESHOT eATOB true true 0 65000) 535
    (by decide) (by decide)
  constructor
  · rw [h.1]; decide
  · cases hb : (calcNextPhasor (channelAt ONESHOT eATOB true true 0 65000) 535).1
    · rfl
    · exact absurd (h.2.mp hb) (by decide)

/-! ## What `calcNextPhasor` leaves alone -/

theorem calcNextPhasor_frame (s : FSM_STATUS) (d : Int) :
    (calcNextPhasor s d).2 = { s with phasor := (calcNextPhasor s d).2.phasor } := by
  unfold calcNextPhasor
  cases s.rising <;> simp only [Bool.false_eq_true, if_false, if_true] <;>
    split <;> try split
  all_goals rfl

@[simp] theorem calcNextPhasor_servo_state (s : FSM_STATUS) (d : Int) :
    (calcNextPhasor s d).2.servo_state = s.servo_state := by
  rw [calcNextPhasor_frame]

@[simp] theorem calcNextPhasor_rising (s : FSM_STATUS) (d : Int) :
    (calcNextPhasor s d).2.rising = s.rising := by
  rw [calcNextPhasor_frame]

@[simp] theorem calcNextPhasor_trigger (s : FSM_STATUS) (d : Int) :
    (calcNextPhasor s d).2.trigger = s.trigger := by
  rw [calcNextPhasor_frame]

@[simp] theorem calcNextPhasor_travelTime (s : FSM_STATUS) (d : Int) :
    (calcNextPhasor s d).2.travelTime = s.travelTime := by
  rw [calcNextPhasor_frame]

@[simp] theorem calcNextPhasor_fsmMode (s : FSM_STATUS) (d : Int) :
    (calcNextPhasor s d).2.fsmMode = s.fsmMode := by
  rw [calcNextPhasor_frame]

/-! ## The dispatcher -/

theorem calculate_oneshot (s : FSM_STATUS) (h : s.fsmMode = ONESHOT) :
    calculate s = oneshotFSM s := by
  unfold calculate; rw [h]

theorem calculate_astable (s : FSM_STATUS) (h : s.fsmMode = ASTABLE) :
    calculate s = astableFSM s := by
  unfold calculate; rw [h]

theorem calculate_bistable (s : FSM_STATUS) (h : s.fsmMode = BISTABLE) :
    calculate s = bistableFSM s := by
  unfold calculate; rw [h]

/-! ## The one-shot excursion -/

theorem oneshotFSM_IDLE_trig (s : FSM_STATUS) (hst : s.servo_state = eIDLE)
    (ht : s.trigger = true) :
    (oneshotFSM s).servo_state = eATOB ∧ (oneshotFSM s).rising = true ∧
    (oneshotFSM s).phasor = s.phasor := by
  unfold oneshotFSM
  rw [hst]
  simp [ht]

theorem oneshotFSM_ATOB (s : FSM_STATUS) (hst : s.servo_state = eATOB) (hr : s.rising = true)
    (hp : 0 ≤ s.phasor ∧ s.phasor ≤ 65535) (htt : 0 ≤ s.travelTime ∧ s.travelTime ≤ 65535) :
    (s.phasor + calcDelta s ≤ 65535 →
      (oneshotFSM s).servo_state = eATOB ∧ (oneshotFSM s).rising = true ∧
      (oneshotFSM s).phasor = s.phasor + calcDelta s) ∧
    (65535 < s.phasor + calcDelta s →
      (oneshotFSM s).servo_state = eBTOA ∧ (oneshotFSM s).rising = false ∧
      (oneshotFSM s).phasor = 65535) := by
  have hd := calcDelta_bounds s htt.1 htt.2
  have hu : unclamped s (calcDelta s) = s.phasor + calcDelta s := by
    unfold unclamped; rw [hr]; rfl
  unfold oneshotFSM
  rw [hst]
  simp only []
  rw [calcNextPhasor_eq s _ hp.1 hp.2 (by omega) (by omega), hu]
  constructor
  · intro h
    have h2 : ¬ (s.phasor + calcDelta s > 65535 ∨ s.phasor + calcDelta s < 0) := by omega
    simp only [h2, decide_False, Bool.false_eq_true, if_false]
    refine ⟨hst, hr, ?_⟩
    simp only [max_def, min_def]
    split_ifs <;> omega
  · intro h
    have h2 : s.phasor + calcDelta s > 65535 ∨ s.phasor + calcDelta s < 0 := Or.inl h
    simp only [h2, decide_True, if_true]
    refine ⟨trivial, trivial, ?_⟩
    simp only [max_def, min_def]
    split_ifs <;> omega

theorem oneshotFSM_BTOA (s : FSM_STATUS) (hst : s.servo_state = eBTOA) (hr : s.rising = false)
    (hp : 0 ≤ s.phasor ∧ s.phasor ≤ 65535) (htt : 0 ≤ s.travelTime ∧ s.travelTime ≤ 65535) :
    (0 ≤ s.phasor - calcDelta s →
      (oneshotFSM s).servo_state = eBTOA ∧ (oneshotFSM s).rising = false ∧
      (oneshotFSM s).phasor = s.phasor - calcDelta s) ∧
    (s.phasor - calcDelta s < 0 →
      (oneshotFSM s).servo_state = eWAIT_TO_RESET ∧ (oneshotFSM s).rising = false ∧
      (oneshotFSM s).phasor = 0) := by
  have hd := calcDelta_bounds s htt.1 htt.2
  have hu : unclamped s (calcDelta s) = s.phasor - calcDelta s := by
    unfold unclamped; rw [hr]; rfl
  unfold oneshotFSM
  rw [hst]
  simp only []
  rw [calcNextPhasor_eq s _ hp.1 hp.2 (by omega) (by omega), hu]
  constructor
  · intro h
    have h2 : ¬ (s.phasor - calcDelta s > 65535 ∨ s.phasor - calcDelta s < 0) := by omega
    simp only [h2, decide_False, Bool.false_eq_true, if_false]
    refine ⟨hst, hr, ?_⟩
    simp only [max_def, min_def]
    split_ifs <;> omega
  · intro h
    have h2 : s.phasor - calcDelta s > 65535 ∨ s.phasor - calcDelta s < 0 := Or.inr h
    simp only [h2, decide_True, if_true]
    refine ⟨trivial, hr, ?_⟩
    simp only [max_def, min_def]
    split_ifs <;> omega

theorem oneshot_first_tick (d : Int) (k : Nat) (hk : 1 ≤ k) (x : FSM_STATUS) (i : Inputs)
    (hm : i.fsmMode = ONESHOT) (htr : i.trigger = true) (hx : OneshotAt d k 0 x) :
    OneshotAt d k 1 (tick x i) := by
  have hx0 : x.servo_state = eIDLE ∧ x.phasor = 0 := by
    rcases hx with h | h | h | h
    · exact h.2
    · omega
    · omega
    · omega
  have e : tick x i = oneshotFSM (sample i x) := calculate_oneshot (sample i x) hm
  have h := oneshotFSM_IDLE_trig (sample i x) hx0.1 htr
  rw [e]
  refine Or.inr (Or.inl ⟨le_refl 1, hk, h.1, h.2.1, ?_⟩)
  rw [h.2.2]
  show x.phasor = _
  rw [hx0.2]; simp

theorem oneshot_next_tick (t d : Int) (k : Nat) (ht : 0 ≤ t ∧ t ≤ 65535)
    (hlo : ((k : Int) - 1) * d ≤ 65535) (hhi : 65535 < (k : Int) * d) (hd0 : 0 < d)
    (hcd : ∀ y : FSM_STATUS, y.travelTime = t → calcDelta y = d)
    (x : FSM_STATUS) (n : Nat) (i : Inputs)
    (hi : i.fsmMode = ONESHOT ∧ i.travelTime = t)
    (hn1 : 1 ≤ n) (hn2 : n ≤ 2 * k) (hx : OneshotAt d k n x) :
    OneshotAt d k (n + 1) (tick x i) := by
  have e : tick x i = oneshotFSM (sample i x) := calculate_oneshot (sample i x) hi.1
  have hcd1 : calcDelta (sample i x) = d := hcd (sample i x) hi.2
  have htt : 0 ≤ (sample i x).travelTime ∧ (sample i x).travelTime ≤ 65535 := by
    have : (sample i x).travelTime = t := hi.2
    rw [this]; exact ht
  rw [e]
  rcases hx with h | h | h | h
  · omega
  · obtain ⟨h1, h2, hst, hr, hp⟩ := h
    obtain ⟨m, rfl⟩ : ∃ m, n = m + 1 := ⟨n - 1, by omega⟩
    have hp2 : x.phasor = (m : Int) * d := by rw [hp]; simp
    have hmk : (m : Int) ≤ (k : Int) - 1 := by omega
    have hle : (m : Int) * d ≤ ((k : Int) - 1) * d := mul_le_mul_of_nonneg_right hmk hd0.le
    have hm0 : 0 ≤ (m : Int) * d := mul_nonneg (by omega) hd0.le
    have hpr : 0 ≤ (sample i x).phasor ∧ (sample i x).phasor ≤ 65535 := by
      show 0 ≤ x.phasor ∧ x.phasor ≤ 65535
      rw [hp2]; exact ⟨hm0, by linarith⟩
    have hstep := oneshotFSM_ATOB (sample i x) hst hr hpr htt
    rw [hcd1] at hstep
    have hph : (sample i x).phasor = (m : Int) * d := hp2
    rw [hph] at hstep
    by_cases hlast : m + 1 = k
    · have hk2 : (k : Int) = (m : Int) + 1 := by omega
      have hdone : 65535 < (m : Int) * d + d := by rw [hk2] at hhi; linarith
      have h3 := hstep.2 hdone
      refine Or.inr (Or.inr (Or.inl ⟨by omega, by omega, h3.1, h3.2.1, ?_⟩))
      rw [h3.2.2]
      have : m + 1 + 1 - (k + 1) = 0 := by omega
      rw [this]; simp
    · have hmk2 : (m : Int) + 1 ≤ (k : Int) - 1 := by omega
      have hle2 : ((m : Int) + 1) * d ≤ ((k : Int) - 1) * d :=
        mul_le_mul_of_nonneg_right hmk2 hd0.le
      have hnot : (m : Int) * d + d ≤ 65535 := by linarith
      have h3 := hstep.1 hnot
      refine Or.inr (Or.inl ⟨by omega, by omega, h3.1, h3.2.1, ?_⟩)
      rw [h3.2.2]
      have : m + 1 + 1 - 1 = m + 1 := by omega
      rw [this]; push_cast; ring
  · obtain ⟨h1, h2, hst, hr, hp⟩ := h
    obtain ⟨j, rfl⟩ : ∃ j, n = k + 1 + j := ⟨n - (k + 1), by omega⟩
    have hp2 : x.phasor = 65535 - (j : Int) * d := by
      rw [hp]
      have : k + 1 + j - (k + 1) = j := by omega
      rw [this]
    have hjk : (j : Int) ≤ (k : Int) - 1 := by omega
    have hle : (j : Int) * d ≤ ((k : Int) - 1) * d := mul_le_mul_of_nonneg_right hjk hd0.le
    have hj0 : 0 ≤ (j : Int) * d := mul_nonneg (by omega) hd0.le
    have hpr : 0 ≤ (sample i x).phasor ∧ (sample i x).phasor ≤ 65535 := by
      show 0 ≤ x.phasor ∧ x.phasor ≤ 65535
      rw [hp2]; exact ⟨by linarith, by linarith⟩
    have hstep := oneshotFSM_BTOA (sample i x) hst hr hpr htt
    rw [hcd1] at hstep
    have hph : (sample i x).phasor = 65535 - (j : Int) * d := hp2
    rw [hph] at hstep
    by_cases hlast : j + 1 = k
    · have hk2 : (k : Int) = (j : Int) + 1 := by omega
      have hdone : 65535 - (j : Int) * d - d < 0 := by rw [hk2] at hhi; linarith
      have h3 := hstep.2 hdone
      exact Or.inr (Or.inr (Or.inr ⟨by omega, h3.1, h3.2.2⟩))
    · have hjk2 : (j : Int) + 1 ≤ (k : Int) - 1 := by omega
      have hle2 : ((j : Int) + 1) * d ≤ ((k : Int) - 1) * d :=
        mul_le_mul_of_nonneg_right hjk2 hd0.le
      have hnot : 0 ≤ 65535 - (j : Int) * d - d := by linarith
      have h3 := hstep.1 hnot
      refine Or.inr (Or.inr (Or.inl ⟨by omega, by omega, h3.1, h3.2.1, ?_⟩))
      rw [h3.2.2]
      have : k + 1 + j + 1 - (k + 1) = j + 1 := by omega
      rw [this]; push_cast; ring
  · omega

theorem oneshot_trajectory (t d : Int) (k : Nat) (ht : 0 ≤ t ∧ t ≤ 65535) (hk : 1 ≤ k)
    (hlo : ((k : Int) - 1) * d ≤ 65535) (hhi : 65535 < (k : Int) * d) (hd0 : 0 < d)
    (hcd : ∀ y : FSM_STATUS, y.travelTime = t → calcDelta y = d)
    (s : FSM_STATUS) (hs : s.servo_state = eIDLE) (hp : s.phasor = 0) (ins : List Inputs) :
    (∀ i ∈ ins, i.fsmMode = ONESHOT ∧ i.travelTime = t) →
    (∀ i, ins.head? = some i → i.trigger = true) →
    ins.length ≤ 2 * k + 1 →
    OneshotAt d k ins.length (run s ins) := by
  induction ins using List.reverseRecOn with
  | nil =>
    intro _ _ _
    exact Or.inl ⟨rfl, hs, hp⟩
  | append_singleton l i ih =>
    intro hins hfirst hlen
    rw [List.length_append, List.length_singleton] at hlen ⊢
    rw [run_snoc]
    have hi := hins i (List.mem_append_right _ (List.mem_singleton_self i))
    have hl := ih (fun j hj => hins j (List.mem_append_left _ hj))
      (fun j hj => hfirst j (by
        cases l with
        | nil => simp at hj
        | cons a l2 => simpa using hj))
      (by omega)
    cases l with
    | nil =>
      have htr : i.trigger = true := hfirst i (by simp)
      exact oneshot_first_tick d k hk _ i hi.1 htr hl
    | cons a l2 =>
      exact oneshot_next_tick t d k ht hlo hhi hd0 hcd _ _ i hi
        (by simp) (by simpa using hlen) hl

/-- C3 (amended): in ONESHOT mode, with travelTime `t` in [0, 65535] held constant,
starting from IDLE with phasor 0, trigger true on the first tick and arbitrary on every
later tick, with `d = calcDelta(t)` and `k = floor(65535 / d) + 1`: after exactly
`1 + 2k` ticks the state is WAIT_TO_RESET with phasor 0; after any smaller number of
ticks the state is not WAIT_TO_RESET; after `1 + k` ticks the phasor is 65535 and the
state is B_TO_A; and up to `1 + 2k` ticks the phasor is 65535 exactly after `1 + k`
ticks and, when `d` divides 65535, also after `k` ticks. -/
theorem C3_oneshot_excursion (s : FSM_STATUS) (t d : Int) (k : Nat) (ins : List Inputs)
    (ht : 0 ≤ t ∧ t ≤ 65535)
    (hd : d = calcDelta { s with travelTime := t })
    (hk : k = (65535 / d).toNat + 1)
    (hs : s.servo_state = eIDLE) (hp : s.phasor = 0)
    (hins : ∀ i ∈ ins, i.fsmMode = ONESHOT ∧ i.travelTime = t)
    (hfirst : ∀ i, ins.head? = some i → i.trigger = true) :
    (ins.length = 1 + 2 * k →
      (run s ins).servo_state = eWAIT_TO_RESET ∧ (run s ins).phasor = 0) ∧
    (ins.length < 1 + 2 * k → (run s ins).servo_state ≠ eWAIT_TO_RESET) ∧
    (ins.length = 1 + k → (run s ins).phasor = 65535 ∧ (run s ins).servo_state = eBTOA) ∧
    (ins.length ≤ 1 + 2 * k →
      ((run s ins).phasor = 65535 ↔ (ins.length = 1 + k ∨ (ins.length = k ∧ d ∣ 65535)))) := by
  have hb := calcDelta_bounds { s with travelTime := t } ht.1 ht.2
  rw [← hd] at hb
  have hd0 : 0 < d := by omega
  have hq : 0 ≤ 65535 / d := Int.ediv_nonneg (by omega) hd0.le
  have hkq : (k : Int) = 65535 / d + 1 := by rw [hk]; push_cast; rw [Int.toNat_of_nonneg hq]
  have hk1 : 1 ≤ k := by omega
  have hlo : ((k : Int) - 1) * d ≤ 65535 := by
    have e : (k : Int) - 1 = 65535 / d := by omega
    rw [e]; exact Int.ediv_mul_le 65535 (by omega)
  have hhi : 65535 < (k : Int) * d := by
    rw [hkq]; exact Int.lt_ediv_add_one_mul_self 65535 hd0
  have hcd : ∀ y : FSM_STATUS, y.travelTime = t → calcDelta y = d := by
    intro y hy
    rw [hd]
    exact calcDelta_congr _ _ hy
  have traj : ins.length ≤ 2 * k + 1 → OneshotAt d k ins.length (run s ins) :=
    oneshot_trajectory t d k ht hk1 hlo hhi hd0 hcd s hs hp ins hins hfirst
  refine ⟨?_, ?_, ?_, ?_⟩
  · intro hlen
    rcases traj (by omega) with h | h | h | h
    · omega
    · omega
    · omega
    · exact h.2
  · intro hlen
    rcases traj (by omega) with h | h | h | h
    · rw [h.2.1]; decide
    · rw [h.2.2.1]; decide
    · rw [h.2.2.1]; decide
    · omega
  · intro hlen
    rcases traj (by omega) with h | h | h | h
    · omega
    · omega
    · obtain ⟨_, _, hst, _, hph⟩ := h
      refine ⟨?_, hst⟩
      rw [hph]
      have : ins.length - (k + 1) = 0 := by omega
      rw [this]; simp
    · omega
  · intro hlen
    rcases traj (by omega) with h | h | h | h
    · have hph : (run s ins).phasor = 0 := h.2.2
      rw [hph]
      constructor
      · intro h0; omega
      · intro h0; omega
    · obtain ⟨h1, h2, _, _, hph⟩ := h
      rw [hph]
      have hmk : ((ins.length - 1 : Nat) : Int) ≤ (k : Int) - 1 := by omega
      constructor
      · intro heq
        right
        by_cases hlast : ins.length = k
        · refine ⟨hlast, Dvd.intro_left _ heq⟩
        · exfalso
          have hmk2 : ((ins.length - 1 : Nat) : Int) + 1 ≤ (k : Int) - 1 := by omega
          have hle2 : (((ins.length - 1 : Nat) : Int) + 1) * d ≤ ((k : Int) - 1) * d :=
            mul_le_mul_of_nonneg_right hmk2 hd0.le
          linarith
      · intro hor
        rcases hor with h0 | ⟨h0, hdvd⟩
        · omega
        · have e : ((ins.length - 1 : Nat) : Int) = 65535 / d := by omega
          rw [e]
          exact Int.ediv_mul_cancel hdvd
    · obtain ⟨h1, h2, _, _, hph⟩ := h
      rw [hph]
      have hj0 : 0 ≤ ((ins.length - (k + 1) : Nat) : Int) := by omega
      constructor
      · intro heq
        left
        have hz : ((ins.length - (k + 1) : Nat) : Int) * d = 0 := by linarith
        rcases mul_eq_zero.mp hz with hz1 | hz1
        · omega
        · omega
      · intro hor
        rcases hor with h0 | ⟨h0, _⟩
        · have : ins.length - (k + 1) = 0 := by omega
          rw [this]; simp
        · omega
    · have hph : (run s ins).phasor = 0 := h.2.2
      rw [hph]
      constructor
      · intro h0; omega
      · intro h0; omega

/-- C3 (amended), at travelTime 0xf000 (step 16384, `k = 4`): nine ticks with trigger
true take the zeroed record to WAIT_TO_RESET with phasor 0. -/
theorem C3_oneshot_excursion_witness :
    (run (initChannel ONESHOT)
      (List.replicate 9 (fullRange 61440 true ONESHOT))).servo_state = eWAIT_TO_RESET ∧
    (run (initChannel ONESHOT) (List.replicate 9 (fullRange 61440 true ONESHOT))).phasor = 0 :=
  (C3_oneshot_excursion (initChannel ONESHOT) 61440 16384 4
    (List.replicate 9 (fullRange 61440 true ONESHOT))
    (by decide) (by decide) (by decide) rfl rfl
    (by
      intro i hi
      rw [List.eq_of_mem_replicate hi]
      exact ⟨rfl, rfl⟩)
    (by
      intro i hi
      simp only [List.replicate, List.head?_cons, Option.some.injEq] at hi
      rw [← hi]; rfl)).1 rfl

/-- C3 as stated fails at travelTime 0x9000: the step is `d = 4369 = 65535 / 15`, so
`k = 16`, and from the zeroed record with trigger true the phasor is 65535 already
after `k = 16` ticks (state still A_TO_B) and again after `1 + k = 17` ticks (state
B_TO_A). So it is not true that, within the `1 + 2k = 33` ticks of the excursion, the
phasor is 65535 only after `1 + k` ticks. -/
theorem C3_top_reached_one_tick_early :
    calcDelta { initChannel ONESHOT with travelTime := 36864 } = 4369 ∧
    (65535 / (4369 : Int)).toNat + 1 = 16 ∧
    (run (initChannel ONESHOT) (List.replicate 16 (fullRange 36864 true ONESHOT))).phasor
      = 65535 ∧
    (run (initChannel ONESHOT) (List.replicate 16 (fullRange 36864 true ONESHOT))).servo_state
      = eATOB ∧
    (run (initChannel ONESHOT) (List.replicate 17 (fullRange 36864 true ONESHOT))).phasor
      = 65535 ∧
    (run (initChannel ONESHOT) (List.replicate 17 (fullRange 36864 true ONESHOT))).servo_state
      = eBTOA ∧
    ¬ (∀ n : Nat, n ≤ 1 + 2 * 16 →
        (run (initChannel ONESHOT) (List.replicate n (fullRange 36864 true ONESHOT))).phasor
          = 65535 → n = 1 + 16) := by
  refine ⟨by decide, by decide, by decide, by decide, by decide, by decide, ?_⟩
  intro h
  exact absurd (h 16 (by decide) (by decide)) (by decide)

/-! ## Waiting for reset -/

theorem oneshotFSM_WAIT (s : FSM_STATUS) (h : s.servo_state = eWAIT_TO_RESET) :
    (oneshotFSM s).servo_state = (if s.trigger then eWAIT_TO_RESET else eIDLE) ∧
    (oneshotFSM s).phasor = s.phasor ∧ (oneshotFSM s).rising = s.rising := by
  unfold oneshotFSM
  rw [h]
  cases s.trigger <;> simp [h]

/-- C4: in ONESHOT mode one tick from WAIT_TO_RESET yields WAIT_TO_RESET when trigger is
true and IDLE when trigger is false, in both cases with phasor and rising unchanged; and
along every sequence of ONESHOT ticks on which trigger is true the channel is still in
WAIT_TO_RESET, with the phasor and rising it had, so that no new sweep starts. -/
theorem C4_oneshot_wait_to_reset (s : FSM_STATUS) (ins : List Inputs)
    (hm : s.fsmMode = ONESHOT) (hs : s.servo_state = eWAIT_TO_RESET)
    (hins : ∀ i ∈ ins, i.fsmMode = ONESHOT ∧ i.trigger = true) :
    ((calculate s).servo_state = (if s.trigger then eWAIT_TO_RESET else eIDLE) ∧
      (calculate s).phasor = s.phasor ∧ (calculate s).rising = s.rising) ∧
    ((run s ins).servo_state = eWAIT_TO_RESET ∧ (run s ins).phasor = s.phasor ∧
      (run s ins).rising = s.rising) := by
  refine ⟨by rw [calculate_oneshot s hm]; exact oneshotFSM_WAIT s hs, ?_⟩
  clear hm
  induction ins generalizing s with
  | nil => exact ⟨hs, rfl, rfl⟩
  | cons i rest ih =>
    have hi := hins i (List.mem_cons_self _ _)
    have hstep := oneshotFSM_WAIT (sample i s) hs
    have e : tick s i = oneshotFSM (sample i s) := calculate_oneshot (sample i s) hi.1
    have ht : (sample i s).trigger = true := hi.2
    rw [ht] at hstep
    rw [run_cons, e]
    have h2 := ih (oneshotFSM (sample i s)) hstep.1
      (fun j hj => hins j (List.mem_cons_of_mem _ hj))
    exact ⟨h2.1, h2.2.1.trans hstep.2.1, h2.2.2.trans hstep.2.2⟩

/-- C4, at a channel waiting for reset with trigger false, followed by three ticks with
trigger true. -/
theorem C4_oneshot_wait_to_reset_witness :
    ((calculate (channelAt ONESHOT eWAIT_TO_RESET false false 0 0)).servo_state = eIDLE ∧
      (calculate (channelAt ONESHOT eWAIT_TO_RESET false false 0 0)).phasor = 0 ∧
      (calculate (channelAt ONESHOT eWAIT_TO_RESET false false 0 0)).rising = false) ∧
    ((run (channelAt ONESHOT eWAIT_TO_RESET false false 0 0)
        (List.replicate 3 (fullRange 0 true ONESHOT))).servo_state = eWAIT_TO_RESET ∧
      (run (channelAt ONESHOT eWAIT_TO_RESET false false 0 0)
        (List.replicate 3 (fullRange 0 true ONESHOT))).phasor = 0 ∧
      (run (channelAt ONESHOT eWAIT_TO_RESET false false 0 0)
        (List.replicate 3 (fullRange 0 true ONESHOT))).rising = false) :=
  C4_oneshot_wait_to_reset (channelAt ONESHOT eWAIT_TO_RESET false false 0 0)
    (List.replicate 3 (fullRange 0 true ONESHOT)) rfl rfl
    (by
      intro i hi
      rw [List.eq_of_mem_replicate hi]
      exact ⟨rfl, rfl⟩)

/-! ## One tick of the astable machine -/

theorem astableFSM_IDLE_trig (s : FSM_STATUS) (h : s.servo_state = eIDLE)
    (ht : s.trigger = true) : (astableFSM s).servo_state = eATOB := by
  unfold astableFSM
  rw [h]
  simp [ht]

theorem astableFSM_sweep_trig (s : FSM_STATUS) (h : s.servo_state = eATOB ∨ s.servo_state = eBTOA)
    (ht : s.trigger = true) :
    (astableFSM s).servo_state = eATOB ∨ (astableFSM s).servo_state = eBTOA := by
  unfold astableFSM
  rcases h with h | h <;> rw [h] <;> simp only [ht] <;>
    cases (calcNextPhasor s (calcDelta s)).1 <;> simp [h]

theorem astableFSM_release (s : FSM_STATUS) (h : s.servo_state = eATOB ∨ s.servo_state = eBTOA)
    (ht : s.trigger = false) :
    (astableFSM s).servo_state = eIDLE ∧ (astableFSM s).phasor = s.phasor := by
  unfold astableFSM
  rcases h with h | h <;> rw [h] <;> simp [ht]

/-- C5: in ASTABLE mode, starting from IDLE with the phasor in range, along every sequence
of ticks on which trigger is true (travelTime in [0, 65535], free to change from tick to
tick) the state is A_TO_B after the first tick and A_TO_B or B_TO_A, hence not IDLE, after
every later tick. -/
theorem C5_astable_never_idle (s : FSM_STATUS) (i : Inputs) (rest : List Inputs)
    (hs : s.servo_state = eIDLE) (_hp : 0 ≤ s.phasor ∧ s.phasor ≤ 65535)
    (hi : i.fsmMode = ASTABLE ∧ i.trigger = true ∧ 0 ≤ i.travelTime ∧ i.travelTime ≤ 65535)
    (hrest : ∀ j ∈ rest,
      j.fsmMode = ASTABLE ∧ j.trigger = true ∧ 0 ≤ j.travelTime ∧ j.travelTime ≤ 65535) :
    (tick s i).servo_state = eATOB ∧
    ((run s (i :: rest)).servo_state = eATOB ∨ (run s (i :: rest)).servo_state = eBTOA) ∧
    (run s (i :: rest)).servo_state ≠ eIDLE := by
  have h1 : (tick s i).servo_state = eATOB := by
    have e : tick s i = astableFSM (sample i s) := calculate_astable (sample i s) hi.1
    rw [e]
    exact astableFSM_IDLE_trig (sample i s) hs hi.2.1
  have h2 : ∀ (l : List Inputs) (x : FSM_STATUS),
      (∀ j ∈ l, j.fsmMode = ASTABLE ∧ j.trigger = true ∧ 0 ≤ j.travelTime ∧
        j.travelTime ≤ 65535) →
      (x.servo_state = eATOB ∨ x.servo_state = eBTOA) →
      ((run x l).servo_state = eATOB ∨ (run x l).servo_state = eBTOA) := by
    intro l
    induction l with
    | nil => intro x _ hx; exact hx
    | cons j l ih =>
      intro x hl hx
      have hj := hl j (List.mem_cons_self _ _)
      have e : tick x j = astableFSM (sample j x) := calculate_astable (sample j x) hj.1
      rw [run_cons, e]
      exact ih _ (fun m hm => hl m (List.mem_cons_of_mem _ hm))
        (astableFSM_sweep_trig (sample j x) hx hj.2.1)
  have h3 := h2 rest (tick s i) hrest (Or.inl h1)
  rw [run_cons]
  refine ⟨h1, h3, ?_⟩
  rcases h3 with h | h <;> rw [h] <;> decide

/-- C5, from the zeroed record, over five ticks with trigger true at the fastest
setting: the sweep turns round at the top and the state is B_TO_A. -/
theorem C5_astable_never_idle_witness :
    (tick (initChannel ASTABLE) (fullRange 65535 true ASTABLE)).servo_state = eATOB ∧
    ((run (initChannel ASTABLE) (fullRange 65535 true ASTABLE ::
        List.replicate 4 (fullRange 65535 true ASTABLE))).servo_state = eATOB ∨
      (run (initChannel ASTABLE) (fullRange 65535 true ASTABLE ::
        List.replicate 4 (fullRange 65535 true ASTABLE))).servo_state = eBTOA) ∧
    (run (initChannel ASTABLE) (fullRange 65535 true ASTABLE ::
        List.replicate 4 (fullRange 65535 true ASTABLE))).servo_state ≠ eIDLE :=
  C5_astable_never_idle (initChannel ASTABLE) (fullRange 65535 true ASTABLE)
    (List.replicate 4 (fullRange 65535 true ASTABLE)) rfl (by decide) (by decide)
    (by
      intro j hj
      rw [List.eq_of_mem_replicate hj]
      decide)

/-- C6: in ASTABLE mode, for every phasor value and every travelTime, one tick with
trigger false from A_TO_B or from B_TO_A yields IDLE with the phasor unchanged. -/
theorem C6_astable_release_freezes (s : FSM_STATUS)
    (hm : s.fsmMode = ASTABLE) (ht : s.trigger = false)
    (hs : s.servo_state = eATOB ∨ s.servo_state = eBTOA) :
    (calculate s).servo_state = eIDLE ∧ (calculate s).phasor = s.phasor := by
  rw [calculate_astable s hm]
  exact astableFSM_release s hs ht

/-- C6, at a channel in mid-sweep towards B with phasor 30000. -/
theorem C6_astable_release_freezes_witness :
    (calculate (channelAt ASTABLE eATOB true false 0 30000)).servo_state = eIDLE ∧
    (calculate (channelAt ASTABLE eATOB true false 0 30000)).phasor = 30000 :=
  C6_astable_release_freezes
    (channelAt ASTABLE eATOB true false 0 30000)
    rfl rfl (Or.inl rfl)

/-! ## The bistable machine: release during A_TO_B, re-assertion during B_TO_A -/

/-- One bistable tick from A_TO_B with trigger false: the phasor is stepped downwards, and
the state is B_TO_A unless that step falls below 0, in which case it is AT_TOP. -/
theorem bistableFSM_ATOB_release (s : FSM_STATUS) (hs : s.servo_state = eATOB)
    (ht : s.trigger = false) (hp : 0 ≤ s.phasor ∧ s.phasor ≤ 65535)
    (htt : 0 ≤ s.travelTime ∧ s.travelTime ≤ 65535) :
    (bistableFSM s).servo_state = (if s.phasor < calcDelta s then eATTOP else eBTOA) ∧
    (bistableFSM s).phasor = max 0 (s.phasor - calcDelta s) := by
  have hd := calcDelta_bounds s htt.1 htt.2
  unfold bistableFSM
  rw [hs]
  simp only [ht, if_true]
  rw [calcNextPhasor_eq _ _ (by exact hp.1) (by exact hp.2) (by omega) (by omega)]
  simp only [unclamped, Bool.false_eq_true, if_false, decide_eq_true_eq]
  by_cases h : s.phasor < calcDelta s
  · have h2 : s.phasor - calcDelta s > 65535 ∨ s.phasor - calcDelta s < 0 := Or.inr (by omega)
    simp only [h2, h, if_true]
    refine ⟨trivial, ?_⟩
    simp only [max_def, min_def]
    split_ifs <;> omega
  · have h2 : ¬ (s.phasor - calcDelta s > 65535 ∨ s.phasor - calcDelta s < 0) := by omega
    simp only [h2, h, if_false]
    refine ⟨trivial, ?_⟩
    simp only [max_def, min_def]
    split_ifs <;> omega

/-- One bistable tick from B_TO_A with trigger true: the phasor is stepped upwards, and the
state is A_TO_B unless that step goes above 65535, in which case it is IDLE. -/
theorem bistableFSM_BTOA_reassert (s : FSM_STATUS) (hs : s.servo_state = eBTOA)
    (ht : s.trigger = true) (hp : 0 ≤ s.phasor ∧ s.phasor ≤ 65535)
    (htt : 0 ≤ s.travelTime ∧ s.travelTime ≤ 65535) :
    (bistableFSM s).servo_state = (if 65535 < s.phasor + calcDelta s then eIDLE else eATOB) ∧
    (bistableFSM s).phasor = min (s.phasor + calcDelta s) 65535 := by
  have hd := calcDelta_bounds s htt.1 htt.2
  unfold bistableFSM
  rw [hs]
  simp only [ht, if_true]
  rw [calcNextPhasor_eq _ _ (by exact hp.1) (by exact hp.2) (by omega) (by omega)]
  simp only [unclamped, if_true, decide_eq_true_eq]
  by_cases h : 65535 < s.phasor + calcDelta s
  · have h2 : s.phasor + calcDelta s > 65535 ∨ s.phasor + calcDelta s < 0 := Or.inl h
    rw [if_pos h2, if_pos h]
    refine ⟨rfl, ?_⟩
    simp only [max_def, min_def]
    split_ifs <;> omega
  · have h2 : ¬ (s.phasor + calcDelta s > 65535 ∨ s.phasor + calcDelta s < 0) := by omega
    rw [if_neg h2, if_neg h]
    refine ⟨rfl, ?_⟩
    simp only [max_def, min_def]
    split_ifs <;> omega

/-- C7: the failing input. In BISTABLE mode, the channel that has just left IDLE (state
A_TO_B, rising, phasor 0) and then sees trigger false is in state AT_TOP after the tick,
with phasor 0, not in B_TO_A. The input is reached from the zeroed record by one tick
with trigger true; after the tick with trigger false, further ticks with trigger true
leave the channel in AT_TOP with the phasor still 0. -/
theorem C7_bistable_release_at_bottom_gives_AT_TOP :
    (calculate (channelAt BISTABLE eATOB true false 0 0)).servo_state = eATTOP ∧
    (calculate (channelAt BISTABLE eATOB true false 0 0)).phasor = 0 ∧
    (run (initChannel BISTABLE) [fullRange 0 true BISTABLE]).servo_state = eATOB ∧
    (run (initChannel BISTABLE)
        [fullRange 0 true BISTABLE, fullRange 0 false BISTABLE]).servo_state = eATTOP ∧
    (run (initChannel BISTABLE)
        ([fullRange 0 true BISTABLE, fullRange 0 false BISTABLE] ++
          List.replicate 3 (fullRange 0 true BISTABLE))).servo_state = eATTOP ∧
    (run (initChannel BISTABLE)
        ([fullRange 0 true BISTABLE, fullRange 0 false BISTABLE] ++
          List.replicate 3 (fullRange 0 true BISTABLE))).phasor = 0 := by
  decide

/-- C8: the failing input. In BISTABLE mode, the channel that has just left AT_TOP (state
B_TO_A, falling, phasor 65535) and then sees trigger true is in state IDLE after the tick,
with phasor 65535, not in A_TO_B. The input is reached from the zeroed record by five
ticks with trigger true (AT_TOP) and one with trigger false (B_TO_A); after the tick with
trigger true, further ticks with trigger false leave the channel in IDLE with the phasor
still 65535. -/
theorem C8_bistable_reassert_at_top_gives_IDLE :
    (calculate (channelAt BISTABLE eBTOA false true 61440 65535)).servo_state = eIDLE ∧
    (calculate (channelAt BISTABLE eBTOA false true 61440 65535)).phasor = 65535 ∧
    (run (initChannel BISTABLE)
        (List.replicate 5 (fullRange 61440 true BISTABLE))).servo_state = eATTOP ∧
    (run (initChannel BISTABLE)
        (List.replicate 5 (fullRange 61440 true BISTABLE) ++
          [fullRange 61440 false BISTABLE])).servo_state = eBTOA ∧
    (run (initChannel BISTABLE)
        (List.replicate 5 (fullRange 61440 true BISTABLE) ++
          [fullRange 61440 false BISTABLE, fullRange 61440 true BISTABLE])).servo_state
      = eIDLE ∧
    (run (initChannel BISTABLE)
        (List.replicate 5 (fullRange 61440 true BISTABLE) ++
          [fullRange 61440 false BISTABLE, fullRange 61440 true BISTABLE] ++
          List.replicate 3 (fullRange 61440 false BISTABLE))).servo_state = eIDLE ∧
    (run (initChannel BISTABLE)
        (List.replicate 5 (fullRange 61440 true BISTABLE) ++
          [fullRange 61440 false BISTABLE, fullRange 61440 true BISTABLE] ++
          List.replicate 3 (fullRange 61440 false BISTABLE))).phasor = 65535 := by
  decide

/-! ## `calcDelta` is the interpolation formula, without overflow -/

theorem timelut_getElem : ∀ idx : Fin 17, timelut[idx.val]? = some (timelut.getD idx 0) := by
  decide

theorem deltaOf_no_overflow : ∀ idx : Fin 16, ∀ frac : Fin 16,
    0 ≤ timelut.getD (idx + 1) 0 - timelut.getD idx 0 ∧
    timelut.getD (idx + 1) 0 - timelut.getD idx 0 ≤ 32767 ∧
    0 ≤ (frac : Int) * ((timelut.getD (idx + 1) 0 - timelut.getD idx 0) >>> (4 : Nat)) ∧
    (frac : Int) * ((timelut.getD (idx + 1) 0 - timelut.getD idx 0) >>> (4 : Nat)) ≤ 32767 ∧
    0 ≤ timelut.getD idx 0 +
      (frac : Int) * ((timelut.getD (idx + 1) 0 - timelut.getD idx 0) >>> (4 : Nat)) ∧
    timelut.getD idx 0 +
      (frac : Int) * ((timelut.getD (idx + 1) 0 - timelut.getD idx 0) >>> (4 : Nat)) ≤ 32767 := by
  decide

/-- C9: for every travelTime `t` in [0, 65535], with `idx = t >> 12` (which needs no
truncation to 8 bits) and `frac = (t >> 8) & 15`, both `idx` and `idx + 1` are inside the
17-entry table, and `calcDelta` returns
`timelut[idx] + frac * ((timelut[idx+1] - timelut[idx]) >> 4)` computed in the integers:
the difference, the product and the sum all lie in [0, 32767], so nothing overflows 16
bits. In particular, for `i` in [0, 15], it returns `timelut[i]` when `t = i << 12` and
`timelut[i] + 15 * ((timelut[i+1] - timelut[i]) >> 4)` when `t = (i << 12) | 0x0f00`. -/
theorem C9_calcDelta_interpolates (s : FSM_STATUS)
    (ht : 0 ≤ s.travelTime ∧ s.travelTime ≤ 65535) :
    (∃ a b : Int,
      calcIdx s = (s.travelTime >>> (12 : Nat)).toNat ∧
      calcIdx s + 1 < timelut.length ∧
      timelut[calcIdx s]? = some a ∧ timelut[calcIdx s + 1]? = some b ∧
      calcDelta s = a + Int.land (s.travelTime >>> (8 : Nat)) 15 * ((b - a) >>> (4 : Nat)) ∧
      (0 ≤ b - a ∧ b - a ≤ 32767) ∧
      (0 ≤ Int.land (s.travelTime >>> (8 : Nat)) 15 * ((b - a) >>> (4 : Nat)) ∧
        Int.land (s.travelTime >>> (8 : Nat)) 15 * ((b - a) >>> (4 : Nat)) ≤ 32767) ∧
      (0 ≤ a + Int.land (s.travelTime >>> (8 : Nat)) 15 * ((b - a) >>> (4 : Nat)) ∧
        a + Int.land (s.travelTime >>> (8 : Nat)) 15 * ((b - a) >>> (4 : Nat)) ≤ 32767)) ∧
    (∀ i : Nat, i < 16 → s.travelTime = ((i <<< 12 : Nat) : Int) →
      calcDelta s = timelut.getD i 0) ∧
    (∀ i : Nat, i < 16 → s.travelTime = (((i <<< 12) ||| 0x0f00 : Nat) : Int) →
      calcDelta s = timelut.getD i 0 +
        15 * ((timelut.getD (i + 1) 0 - timelut.getD i 0) >>> (4 : Nat))) := by
  have hidx := calcIdx_eq s ht.1 ht.2
  have hi : (s.travelTime / 4096).toNat < 16 := by omega
  have hf : (s.travelTime / 256 % 16).toNat < 16 := by omega
  have hfrac : Int.land (s.travelTime >>> (8 : Nat)) 15 =
      (((s.travelTime / 256 % 16).toNat : Nat) : Int) := by
    rw [int_land_15 _ ht.1]; omega
  have hd := calcDelta_eq_deltaOf s ht.1 ht.2
  have htab := deltaOf_table ⟨_, hi⟩ ⟨_, hf⟩
  have hno := deltaOf_no_overflow ⟨_, hi⟩ ⟨_, hf⟩
  refine ⟨⟨timelut.getD (s.travelTime / 4096).toNat 0,
      timelut.getD ((s.travelTime / 4096).toNat + 1) 0, ?_, ?_, ?_, ?_, ?_, ?_, ?_, ?_⟩, ?_, ?_⟩
  · rw [hidx.1, Int.shiftRight_eq_div_pow]
    norm_num
  · have hl : timelut.length = 17 := rfl
    omega
  · rw [hidx.1]
    exact timelut_getElem ⟨(s.travelTime / 4096).toNat, by omega⟩
  · rw [hidx.1]
    exact timelut_getElem ⟨(s.travelTime / 4096).toNat + 1, by omega⟩
  · rw [hd, hfrac]; exact htab.1
  · exact ⟨hno.1, hno.2.1⟩
  · rw [hfrac]; exact ⟨hno.2.2.1, hno.2.2.2.1⟩
  · rw [hfrac]; exact ⟨hno.2.2.2.2.1, hno.2.2.2.2.2⟩
  · intro i hi16 hti
    rw [hd, hti]
    interval_cases i <;> decide
  · intro i hi16 hti
    rw [hd, hti]
    interval_cases i <;> decide

/-- C9, at travelTime 0x9f00: index 9, fraction 15, step 4369 + 15 * (874 >> 4) = 5179. -/
theorem C9_calcDelta_interpolates_witness :
    calcDelta (channelAt ONESHOT eIDLE false false 40704 0) =
      timelut.getD 9 0 + 15 * ((timelut.getD (9 + 1) 0 - timelut.getD 9 0) >>> (4 : Nat)) :=
  (C9_calcDelta_interpolates (channelAt ONESHOT eIDLE false false 40704 0)
    (by decide)).2.2 9 (by decide) (by decide)

/-! ## `scalePhasor` at the ends of the full range -/

/-- C10: with positionA = 0 and positionB = 65535, `scalePhasor` returns 0 when the phasor
is 0 and PWM_RANGE_USEC = 1000 when the phasor is PHASOR_MAX = 65535. -/
theorem C10_scalePhasor_full_range_ends (s : FSM_STATUS)
    (ha : s.positionA = 0) (hb : s.positionB = 65535) :
    (s.phasor = 0 → scalePhasor s = 0) ∧
    (s.phasor = PHASOR_MAX → scalePhasor s = PWM_RANGE_USEC) ∧
    PWM_RANGE_USEC = 1000 ∧ PHASOR_MAX = 65535 := by
  unfold scalePhasor
  rw [ha, hb]
  refine ⟨?_, ?_, rfl, rfl⟩ <;> intro h <;> rw [h] <;> decide

/-- C10, at the zeroed record with positionB = 65535 (phasor 0). -/
theorem C10_scalePhasor_full_range_ends_witness :
    scalePhasor (channelAt ONESHOT eIDLE false false 0 0) = 0 :=
  (C10_scalePhasor_full_range_ends (channelAt ONESHOT eIDLE false false 0 0)
    rfl rfl).1 rfl

/-! ## Attaching and detaching -/

/-- C11: for every 8-bit servoID, `attachServoFSM` and `detachServoFSM` return true exactly
when servoID < 2; when servoID >= 2 they leave both channel records and the
pin-direction register unchanged; when servoID is 0 or 1, attach sets that channel's
attached flag to true and detach sets it to false, and no other field of either channel
record changes. -/
theorem C11_attach_detach (servoID : Nat) (g : Controller) (_h8 : servoID < 256) :
    (((attachServoFSM servoID g).1 = true ↔ servoID < 2) ∧
      ((detachServoFSM servoID g).1 = true ↔ servoID < 2)) ∧
    (2 ≤ servoID → (attachServoFSM servoID g).2 = g ∧ (detachServoFSM servoID g).2 = g) ∧
    (servoID = 0 →
      (attachServoFSM servoID g).2.fsm_status0 = { g.fsm_status0 with attached := true } ∧
      (attachServoFSM servoID g).2.fsm_status1 = g.fsm_status1 ∧
      (detachServoFSM servoID g).2.fsm_status0 = { g.fsm_status0 with attached := false } ∧
      (detachServoFSM servoID g).2.fsm_status1 = g.fsm_status1) ∧
    (servoID = 1 →
      (attachServoFSM servoID g).2.fsm_status1 = { g.fsm_status1 with attached := true } ∧
      (attachServoFSM servoID g).2.fsm_status0 = g.fsm_status0 ∧
      (detachServoFSM servoID g).2.fsm_status1 = { g.fsm_status1 with attached := false } ∧
      (detachServoFSM servoID g).2.fsm_status0 = g.fsm_status0) := by
  unfold attachServoFSM detachServoFSM
  refine ⟨⟨?_, ?_⟩, ?_, ?_, ?_⟩
  · by_cases h0 : servoID = 0
    · simp [h0]
    · by_cases h1 : servoID = 1
      · simp [h1]
      · have h2 : ¬ servoID < 2 := by omega
        simp [h2]
  · by_cases h0 : servoID = 0
    · simp [h0]
    · by_cases h1 : servoID = 1
      · simp [h1]
      · have h2 : ¬ servoID < 2 := by omega
        simp [h2]
  · intro h
    have h2 : ¬ servoID < 2 := by omega
    simp [h2]
  · intro h0
    simp [h0]
  · intro h1
    simp [h1]

/-- C11, at servoID 2 on a controller whose two channels are zeroed: both calls fail and
change nothing. -/
theorem C11_attach_detach_witness :
    (attachServoFSM 2 ⟨initChannel ASTABLE, initChannel ASTABLE, 0⟩).1 = false ∧
    (attachServoFSM 2 ⟨initChannel ASTABLE, initChannel ASTABLE, 0⟩).2 =
      ⟨initChannel ASTABLE, initChannel ASTABLE, 0⟩ ∧
    (detachServoFSM 2 ⟨initChannel ASTABLE, initChannel ASTABLE, 0⟩).2 =
      ⟨initChannel ASTABLE, initChannel ASTABLE, 0⟩ := by
  have h := C11_attach_detach 2 ⟨initChannel ASTABLE, initChannel ASTABLE, 0⟩ (by decide)
  refine ⟨?_, (h.2.1 (le_refl 2)).1, (h.2.1 (le_refl 2)).2⟩
  cases hb : (attachServoFSM 2 ⟨initChannel ASTABLE, initChannel ASTABLE, 0⟩).1
  · rfl
  · exact absurd (h.1.1.mp hb) (by decide)

/-! ## The output value is recomputed on every tick -/

theorem scalePhasor_congr (s r : FSM_STATUS) (ha : s.positionA = r.positionA)
    (hb : s.positionB = r.positionB) (hp : s.phasor = r.phasor) :
    scalePhasor s = scalePhasor r := by
  unfold scalePhasor
  rw [ha, hb, hp]

theorem calcNextPhasor_positionA (s : FSM_STATUS) (d : Int) :
    (calcNextPhasor s d).2.positionA = s.positionA := by
  rw [calcNextPhasor_frame]

theorem calcNextPhasor_positionB (s : FSM_STATUS) (d : Int) :
    (calcNextPhasor s d).2.positionB = s.positionB := by
  rw [calcNextPhasor_frame]

theorem oneshotFSM_us_val (s : FSM_STATUS) :
    (oneshotFSM s).us_val = scalePhasor (oneshotFSM s) ∧
    (oneshotFSM s).positionA = s.positionA ∧ (oneshotFSM s).positionB = s.positionB := by
  unfold oneshotFSM
  refine ⟨scalePhasor_congr _ _ rfl rfl rfl, ?_, ?_⟩ <;>
    split <;>
    simp only [apply_ite FSM_STATUS.positionA, apply_ite FSM_STATUS.positionB,
      calcNextPhasor_positionA, calcNextPhasor_positionB, ite_self]

theorem astableFSM_us_val (s : FSM_STATUS) :
    (astableFSM s).us_val = scalePhasor (astableFSM s) ∧
    (astableFSM s).positionA = s.positionA ∧ (astableFSM s).positionB = s.positionB := by
  unfold astableFSM
  refine ⟨scalePhasor_congr _ _ rfl rfl rfl, ?_, ?_⟩ <;>
    split <;>
    simp only [apply_ite FSM_STATUS.positionA, apply_ite FSM_STATUS.positionB,
      calcNextPhasor_positionA, calcNextPhasor_positionB, ite_self]

theorem bistableFSM_us_val (s : FSM_STATUS) :
    (bistableFSM s).us_val = scalePhasor (bistableFSM s) ∧
    (bistableFSM s).positionA = s.positionA ∧ (bistableFSM s).positionB = s.positionB := by
  unfold bistableFSM
  refine ⟨scalePhasor_congr _ _ rfl rfl rfl, ?_, ?_⟩ <;>
    split <;>
    simp only [apply_ite FSM_STATUS.positionA, apply_ite FSM_STATUS.positionB,
      calcNextPhasor_positionA, calcNextPhasor_positionB, ite_self]

/-- C12: for every mode among ASTABLE, BISTABLE and ONESHOT and every servo state, also
one the mode's machine has no case for, after one call of `calculate` the channel's
us_val equals `scalePhasor` of the channel as it is after the tick, that is of the
post-tick phasor with the channel's positionA and positionB, which the tick does not
change. -/
theorem C12_us_val_recomputed (s : FSM_STATUS)
    (hm : s.fsmMode = ASTABLE ∨ s.fsmMode = BISTABLE ∨ s.fsmMode = ONESHOT) :
    (calculate s).us_val = scalePhasor (calculate s) ∧
    (calculate s).us_val =
      scalePhasor { s with phasor := (calculate s).phasor } ∧
    (calculate s).positionA = s.positionA ∧ (calculate s).positionB = s.positionB := by
  have key : (calculate s).us_val = scalePhasor (calculate s) ∧
      (calculate s).positionA = s.positionA ∧ (calculate s).positionB = s.positionB := by
    rcases hm with h | h | h
    · rw [calculate_astable s h]; exact astableFSM_us_val s
    · rw [calculate_bistable s h]; exact bistableFSM_us_val s
    · rw [calculate_oneshot s h]; exact oneshotFSM_us_val s
  refine ⟨key.1, ?_, key.2.1, key.2.2⟩
  rw [key.1]
  exact scalePhasor_congr _ _ key.2.1 key.2.2 rfl

/-- C12, at an astable channel in WAIT_TO_RESET (a state `astableFSM` has no case for)
with a stale us_val of 0 and phasor 65535: the tick sets us_val to 1000. -/
theorem C12_us_val_recomputed_witness :
    (calculate (channelAt ASTABLE eWAIT_TO_RESET false true 0 65535)).us_val = 1000 := by
  have h := (C12_us_val_recomputed (channelAt ASTABLE eWAIT_TO_RESET false true 0 65535)
    (Or.inl rfl)).1
  rw [h]
  decide

/-- C13: when fsmMode holds a value other than ASTABLE, BISTABLE or ONESHOT, `calculate`
changes nothing: the channel record after the call is the record before it, servo_state,
rising, phasor and us_val included. -/
theorem C13_unknown_mode_is_noop (s : FSM_STATUS)
    (h0 : s.fsmMode ≠ ASTABLE) (h1 : s.fsmMode ≠ BISTABLE) (h2 : s.fsmMode ≠ ONESHOT) :
    calculate s = s := by
  unfold calculate
  split
  · exact absurd (by assumption) h0
  · exact absurd (by assumption) h1
  · exact absurd (by assumption) h2
  · rfl

/-- C13, at a channel with mode code 3, in mid-sweep with trigger true. -/
theorem C13_unknown_mode_is_noop_witness :
    calculate (channelAt 3 eATOB true true 0 30000) = channelAt 3 eATOB true true 0 30000 :=
  C13_unknown_mode_is_noop (channelAt 3 eATOB true true 0 30000)
    (by decide) (by decide) (by decide)

/-! ## The range of `scalePhasor` -/

theorem tdiv_65535_of_nonneg (a : Int) (h : 0 ≤ a) : Int.tdiv a 65535 = a / 65535 :=
  Int.tdiv_eq_ediv h (by decide)

theorem tdiv_65535_of_nonpos (a : Int) (h : a ≤ 0) : Int.tdiv a 65535 = -((-a) / 65535) := by
  have e : a = -(-a) := by omega
  have h2 : Int.tdiv (-a) 65535 = (-a) / 65535 := Int.tdiv_eq_ediv (by omega) (by decide)
  rw [← h2, ← Int.neg_tdiv]
  simp

/-- The value of `scalePhasor` computed in the integers, without any reduction to 32 or 16
bits, and the bounds of its parts, for in-range positions and phasor. -/
theorem scalePhasor_exact (s : FSM_STATUS)
    (ha : 0 ≤ s.positionA ∧ s.positionA ≤ 65535) (hb : 0 ≤ s.positionB ∧ s.positionB ≤ 65535)
    (hp : 0 ≤ s.phasor ∧ s.phasor ≤ 65535) :
    scalePhasor s =
      Int.tdiv (s.phasor * Int.tdiv ((s.positionB - s.positionA) * 1000) 65535) 65535 +
        Int.tdiv (s.positionA * 1000) 65535 ∧
    0 ≤ scalePhasor s ∧ scalePhasor s ≤ 1000 ∧
    (s.positionA ≤ s.positionB →
      0 ≤ Int.tdiv ((s.positionB - s.positionA) * 1000) 65535 ∧
      scalePhasor s ≤ Int.tdiv (s.positionB * 1000) 65535) ∧
    (s.positionB < s.positionA →
      Int.tdiv ((s.positionB - s.positionA) * 1000) 65535 ≤ 0 ∧
      scalePhasor s ≤ Int.tdiv (s.positionA * 1000) 65535) := by
  unfold scalePhasor PWM_RANGE_USEC ADC_MAX PHASOR_MAX
  have e1 : wrap32 (s.positionB - s.positionA) = s.positionB - s.positionA :=
    wrap32_id _ (by omega) (by omega)
  have e2 : wrap32 ((s.positionB - s.positionA) * 1000) = (s.positionB - s.positionA) * 1000 :=
    wrap32_id _ (by omega) (by omega)
  have e3 : wrap32 (s.positionA * 1000) = s.positionA * 1000 :=
    wrap32_id _ (by omega) (by omega)
  have eo : Int.tdiv (s.positionA * 1000) 65535 = s.positionA * 1000 / 65535 :=
    tdiv_65535_of_nonneg _ (by omega)
  have eB : Int.tdiv (s.positionB * 1000) 65535 = s.positionB * 1000 / 65535 :=
    tdiv_65535_of_nonneg _ (by omega)
  simp only [e1, e2, e3]
  by_cases hab : s.positionA ≤ s.positionB
  · have er : Int.tdiv ((s.positionB - s.positionA) * 1000) 65535 =
        (s.positionB - s.positionA) * 1000 / 65535 := tdiv_65535_of_nonneg _ (by omega)
    have hr0 : 0 ≤ (s.positionB - s.positionA) * 1000 / 65535 := by omega
    have hr1 : (s.positionB - s.positionA) * 1000 / 65535 ≤ 1000 := by omega
    rw [er, eo, eB]
    generalize hr : (s.positionB - s.positionA) * 1000 / 65535 = r at *
    have hpr0 : 0 ≤ s.phasor * r := mul_nonneg hp.1 hr0
    have hpr1 : s.phasor * r ≤ 65535 * r := mul_le_mul_of_nonneg_right hp.2 hr0
    have e4 : wrap32 (s.phasor * r) = s.phasor * r := wrap32_id _ (by omega) (by omega)
    have e5 : Int.tdiv (s.phasor * r) 65535 = s.phasor * r / 65535 :=
      tdiv_65535_of_nonneg _ hpr0
    rw [e4, e5]
    generalize s.phasor * r = q at *
    have e6 : wrap32 (q / 65535 + s.positionA * 1000 / 65535) =
        q / 65535 + s.positionA * 1000 / 65535 := wrap32_id _ (by omega) (by omega)
    rw [e6, wrap16_id _ (by omega) (by omega)]
    refine ⟨rfl, by omega, by omega, fun _ => ⟨by omega, by omega⟩, fun h => by omega⟩
  · have er : Int.tdiv ((s.positionB - s.positionA) * 1000) 65535 =
        -((-((s.positionB - s.positionA) * 1000)) / 65535) :=
      tdiv_65535_of_nonpos _ (by omega)
    rw [er, eo, eB]
    have hr0 : 0 ≤ (-((s.positionB - s.positionA) * 1000)) / 65535 := by omega
    have hr1 : (-((s.positionB - s.positionA) * 1000)) / 65535 ≤ s.positionA * 1000 / 65535 := by
      omega
    generalize hr : (-((s.positionB - s.positionA) * 1000)) / 65535 = r at *
    have hpr0 : 0 ≤ s.phasor * r := mul_nonneg hp.1 hr0
    have hpr1 : s.phasor * r ≤ 65535 * r := mul_le_mul_of_nonneg_right hp.2 hr0
    have hneg : s.phasor * -r = -(s.phasor * r) := by ring
    rw [hneg]
    have e4 : wrap32 (-(s.phasor * r)) = -(s.phasor * r) := wrap32_id _ (by omega) (by omega)
    have e5 : Int.tdiv (-(s.phasor * r)) 65535 = -((- -(s.phasor * r)) / 65535) :=
      tdiv_65535_of_nonpos _ (by omega)
    rw [e4, e5, neg_neg]
    generalize s.phasor * r = q at *
    have e6 : wrap32 (-(q / 65535) + s.positionA * 1000 / 65535) =
        -(q / 65535) + s.positionA * 1000 / 65535 := wrap32_id _ (by omega) (by omega)
    rw [e6, wrap16_id _ (by omega) (by omega)]
    refine ⟨rfl, by omega, by omega, fun h => by omega, fun _ => ⟨by omega, by omega⟩⟩

/-- C14: for every positionA <= positionB, both in [0, 65535], and every phasor in
[0, 65535], `scalePhasor` returns a value in [0, PWM_RANGE_USEC] = [0, 1000], and that
value is the one the formula gives in the integers with division truncating toward zero:
no 32-bit intermediate value overflows and the conversion to 16 bits loses nothing. -/
theorem C14_scalePhasor_in_range (s : FSM_STATUS)
    (ha : 0 ≤ s.positionA ∧ s.positionA ≤ 65535) (hb : 0 ≤ s.positionB ∧ s.positionB ≤ 65535)
    (hp : 0 ≤ s.phasor ∧ s.phasor ≤ 65535) (_hab : s.positionA ≤ s.positionB) :
    (0 ≤ scalePhasor s ∧ scalePhasor s ≤ PWM_RANGE_USEC) ∧ PWM_RANGE_USEC = 1000 ∧
    scalePhasor s =
      Int.tdiv (s.phasor * Int.tdiv ((s.positionB - s.positionA) * 1000) 65535) 65535 +
        Int.tdiv (s.positionA * 1000) 65535 :=
  have h := scalePhasor_exact s ha hb hp
  ⟨⟨h.2.1, h.2.2.1⟩, rfl, h.1⟩

/-- C14, at positionA = 0, positionB = 65535 and phasor 30000: the value is 457. -/
theorem C14_scalePhasor_in_range_witness :
    scalePhasor (channelAt ASTABLE eATOB true true 0 30000) = 457 ∧
    (0 ≤ scalePhasor (channelAt ASTABLE eATOB true true 0 30000) ∧
      scalePhasor (channelAt ASTABLE eATOB true true 0 30000) ≤ PWM_RANGE_USEC) :=
  ⟨by decide, (C14_scalePhasor_in_range (channelAt ASTABLE eATOB true true 0 30000)
    (by decide) (by decide) (by decide) (by decide)).1⟩

/-- C15 (amended): for every positionA > positionB, both in [0, 65535], and every phasor
in [0, 65535], `scalePhasor` (with division truncating toward zero) returns a value in
[0, PWM_RANGE_USEC] = [0, 1000], at most the scaled positionA: under direction reversal
the output does not leave the nominal range either. -/
theorem C15_scalePhasor_in_range_reversed (s : FSM_STATUS)
    (ha : 0 ≤ s.positionA ∧ s.positionA ≤ 65535) (hb : 0 ≤ s.positionB ∧ s.positionB ≤ 65535)
    (hp : 0 ≤ s.phasor ∧ s.phasor ≤ 65535) (hab : s.positionB < s.positionA) :
    (0 ≤ scalePhasor s ∧ scalePhasor s ≤ PWM_RANGE_USEC) ∧ PWM_RANGE_USEC = 1000 ∧
    scalePhasor s ≤ Int.tdiv (s.positionA * 1000) 65535 :=
  have h := scalePhasor_exact s ha hb hp
  ⟨⟨h.2.1, h.2.2.1⟩, rfl, (h.2.2.2.2 hab).2⟩

/-- C15 (amended), at positionA = 65535, positionB = 0: the value is 1000 at phasor 0 and
0 at phasor 65535. -/
theorem C15_scalePhasor_in_range_reversed_witness :
    scalePhasor { channelAt ASTABLE eATOB true true 0 0 with
      positionA := 65535, positionB := 0 } = 1000 ∧
    scalePhasor { channelAt ASTABLE eATOB true true 0 65535 with
      positionA := 65535, positionB := 0 } = 0 ∧
    (0 ≤ scalePhasor { channelAt ASTABLE eATOB true true 0 65535 with
        positionA := 65535, positionB := 0 } ∧
      scalePhasor { channelAt ASTABLE eATOB true true 0 65535 with
        positionA := 65535, positionB := 0 } ≤ PWM_RANGE_USEC) :=
  ⟨by decide, by decide,
    (C15_scalePhasor_in_range_reversed
      { channelAt ASTABLE eATOB true true 0 65535 with positionA := 65535, positionB := 0 }
      (by decide) (by decide) (by decide) (by decide)).1⟩

/-- C15 as stated fails: there is no positionA > positionB, both in [0, 65535], and phasor
in [0, 65535] for which `scalePhasor` returns a value outside [0, PWM_RANGE_USEC]. -/
theorem C15_no_value_outside_range :
    ¬ ∃ s : FSM_STATUS,
      (0 ≤ s.positionA ∧ s.positionA ≤ 65535) ∧ (0 ≤ s.positionB ∧ s.positionB ≤ 65535) ∧
      (0 ≤ s.phasor ∧ s.phasor ≤ 65535) ∧ s.positionB < s.positionA ∧
      (scalePhasor s < 0 ∨ PWM_RANGE_USEC < scalePhasor s) := by
  rintro ⟨s, ha, hb, hp, _, hout⟩
  have h := scalePhasor_exact s ha hb hp
  have e : PWM_RANGE_USEC = 1000 := rfl
  rw [e] at hout
  omega

/-! ## The direction flag agrees with the sweep state -/

theorem oneshotFSM_DirectionOK (s : FSM_STATUS) (h : DirectionOK s) :
    DirectionOK (oneshotFSM s) := by
  unfold DirectionOK at *
  unfold oneshotFSM
  split <;> rcases Bool.eq_false_or_eq_true s.trigger with ht | ht <;>
    simp only [ht] <;> (try split_ifs) <;>
    simp_all [eIDLE, eATOB, eATTOP, eBTOA, eWAIT_TO_RESET]

theorem astableFSM_DirectionOK (s : FSM_STATUS) (h : DirectionOK s) :
    DirectionOK (astableFSM s) := by
  unfold DirectionOK at *
  unfold astableFSM
  split <;> rcases Bool.eq_false_or_eq_true s.trigger with ht | ht <;>
    simp only [ht] <;> (try split_ifs) <;>
    simp_all [eIDLE, eATOB, eATTOP, eBTOA, eWAIT_TO_RESET]

theorem bistableFSM_DirectionOK (s : FSM_STATUS) (h : DirectionOK s) :
    DirectionOK (bistableFSM s) := by
  unfold DirectionOK at *
  unfold bistableFSM
  split <;> rcases Bool.eq_false_or_eq_true s.trigger with ht | ht <;>
    simp only [ht] <;> (try split_ifs) <;>
    simp_all [eIDLE, eATOB, eATTOP, eBTOA, eWAIT_TO_RESET]

theorem calculate_DirectionOK (s : FSM_STATUS) (h : DirectionOK s) :
    DirectionOK (calculate s) := by
  unfold calculate
  split
  · exact astableFSM_DirectionOK s h
  · exact bistableFSM_DirectionOK s h
  · exact oneshotFSM_DirectionOK s h
  · exact h

theorem sample_DirectionOK (i : Inputs) (s : FSM_STATUS) (h : DirectionOK s) :
    DirectionOK (sample i s) := h

theorem run_DirectionOK (ins : List Inputs) :
    ∀ s : FSM_STATUS, DirectionOK s → DirectionOK (run s ins) := by
  induction ins with
  | nil => intro s h; exact h
  | cons i rest ih =>
    intro s h
    rw [run_cons]
    exact ih _ (calculate_DirectionOK _ (sample_DirectionOK i s h))

/-- C16: the predicate "servo_state = A_TO_B implies rising = true, and servo_state =
B_TO_A implies rising = false" is preserved by `calculate` for every mode among ASTABLE,
BISTABLE and ONESHOT, every trigger, travelTime in [0, 65535] and phasor in [0, 65535];
hence it still holds after any sequence of ticks with in-range inputs, also when the mode
differs from tick to tick. -/
theorem C16_direction_flag_preserved (s : FSM_STATUS) (ins : List Inputs)
    (_hm : s.fsmMode = ASTABLE ∨ s.fsmMode = BISTABLE ∨ s.fsmMode = ONESHOT)
    (_ht : 0 ≤ s.travelTime ∧ s.travelTime ≤ 65535)
    (_hp : 0 ≤ s.phasor ∧ s.phasor ≤ 65535)
    (h : DirectionOK s)
    (_hins : ∀ i ∈ ins, i.InRange) :
    DirectionOK (calculate s) ∧ DirectionOK (run s ins) :=
  ⟨calculate_DirectionOK s h, run_DirectionOK ins s h⟩

/-- C16, at a bistable channel rising in A_TO_B whose trigger is released, followed by a
tick in ONESHOT and one in ASTABLE mode. -/
theorem C16_direction_flag_preserved_witness :
    DirectionOK (calculate (channelAt BISTABLE eATOB true false 0 30000)) ∧
    DirectionOK (run (channelAt BISTABLE eATOB true false 0 30000)
      [fullRange 0 true ONESHOT, fullRange 65535 true ASTABLE]) :=
  C16_direction_flag_preserved (channelAt BISTABLE eATOB true false 0 30000)
    [fullRange 0 true ONESHOT, fullRange 65535 true ASTABLE]
    (by decide) (by decide) (by decide) (by decide)
    (by
      intro i hi
      simp only [List.mem_cons, List.mem_singleton, List.not_mem_nil, or_false] at hi
      rcases hi with rfl | rfl <;> decide)

/-! ## In bistable mode the phasor follows the trigger -/

theorem calcNextPhasor_up (x : FSM_STATUS) (d : Int) (hr : x.rising = true)
    (hp : 0 ≤ x.phasor ∧ x.phasor ≤ 65535) (hd : 0 ≤ d ∧ d ≤ 32767) :
    x.phasor ≤ (calcNextPhasor x d).2.phasor := by
  rw [calcNextPhasor_eq x d hp.1 hp.2 (by omega) hd.2]
  simp only [unclamped, hr, if_true, max_def, min_def]
  split_ifs <;> omega

theorem calcNextPhasor_down (x : FSM_STATUS) (d : Int) (hr : x.rising = false)
    (hp : 0 ≤ x.phasor ∧ x.phasor ≤ 65535) (hd : 0 ≤ d ∧ d ≤ 32767) :
    (calcNextPhasor x d).2.phasor ≤ x.phasor := by
  rw [calcNextPhasor_eq x d hp.1 hp.2 (by omega) hd.2]
  simp only [unclamped, hr, Bool.false_eq_true, if_false, max_def, min_def]
  split_ifs <;> omega

theorem bistableFSM_phasor_follows (s : FSM_STATUS) (h : DirectionOK s)
    (ht : 0 ≤ s.travelTime ∧ s.travelTime ≤ 65535) (hp : 0 ≤ s.phasor ∧ s.phasor ≤ 65535) :
    (s.trigger = true → s.phasor ≤ (bistableFSM s).phasor) ∧
    (s.trigger = false → (bistableFSM s).phasor ≤ s.phasor) := by
  have hd := calcDelta_bounds s ht.1 ht.2
  have hd2 : 0 ≤ calcDelta s ∧ calcDelta s ≤ 32767 := by omega
  have up : ∀ x : FSM_STATUS, x.phasor = s.phasor → x.rising = true →
      s.phasor ≤ (calcNextPhasor x (calcDelta s)).2.phasor := by
    intro x hx hr
    have := calcNextPhasor_up x (calcDelta s) hr (hx ▸ hp) hd2
    rw [hx] at this; exact this
  have down : ∀ x : FSM_STATUS, x.phasor = s.phasor → x.rising = false →
      (calcNextPhasor x (calcDelta s)).2.phasor ≤ s.phasor := by
    intro x hx hr
    have := calcNextPhasor_down x (calcDelta s) hr (hx ▸ hp) hd2
    rw [hx] at this; exact this
  unfold DirectionOK at h
  unfold bistableFSM
  constructor <;> intro htr <;> split <;>
    simp only [htr, Bool.true_eq_false, Bool.false_eq_true, if_true, if_false,
      apply_ite FSM_STATUS.phasor, ite_self] <;>
    first
    | exact le_refl _
    | exact up _ rfl rfl
    | exact down _ rfl rfl
    | exact up _ rfl (h.1 (by assumption))
    | exact down _ rfl (h.2 (by assumption))

/-- C17: in BISTABLE mode, for every servo state with "A_TO_B implies rising, B_TO_A
implies not rising", every travelTime in [0, 65535] and every phasor in [0, 65535], one
tick with trigger true does not decrease the phasor and one tick with trigger false does
not increase it. -/
theorem C17_bistable_phasor_follows_trigger (s : FSM_STATUS)
    (hm : s.fsmMode = BISTABLE) (h : DirectionOK s)
    (ht : 0 ≤ s.travelTime ∧ s.travelTime ≤ 65535) (hp : 0 ≤ s.phasor ∧ s.phasor ≤ 65535) :
    (s.trigger = true → s.phasor ≤ (calculate s).phasor) ∧
    (s.trigger = false → (calculate s).phasor ≤ s.phasor) := by
  rw [calculate_bistable s hm]
  exact bistableFSM_phasor_follows s h ht hp

/-- C17, at a bistable channel falling in B_TO_A at phasor 30000 whose trigger is true
again: the phasor does not go down. -/
theorem C17_bistable_phasor_follows_trigger_witness :
    (30000 : Int) ≤ (calculate (channelAt BISTABLE eBTOA false true 0 30000)).phasor :=
  (C17_bistable_phasor_follows_trigger (channelAt BISTABLE eBTOA false true 0 30000)
    rfl (by decide) (by decide) (by decide)).1 rfl

/-! ## AT_TOP in the one-shot and astable machines -/

/-- C19: in ONESHOT mode and in ASTABLE mode, one tick from AT_TOP yields B_TO_A with
rising = false and the phasor unchanged, for either value of trigger; in ASTABLE the
result is B_TO_A, not IDLE, also when trigger is false. -/
theorem C19_at_top_falls_through (s : FSM_STATUS)
    (hm : s.fsmMode = ONESHOT ∨ s.fsmMode = ASTABLE) (hs : s.servo_state = eATTOP) :
    (calculate s).servo_state = eBTOA ∧ (calculate s).rising = false ∧
    (calculate s).phasor = s.phasor := by
  rcases hm with h | h
  · rw [calculate_oneshot s h]
    unfold oneshotFSM
    rw [hs]
    exact ⟨rfl, rfl, rfl⟩
  · rw [calculate_astable s h]
    unfold astableFSM
    rw [hs]
    rcases Bool.eq_false_or_eq_true s.trigger with ht | ht <;> simp [ht]

/-- C19, at an astable channel in AT_TOP with trigger false and phasor 65535. -/
theorem C19_at_top_falls_through_witness :
    (calculate (channelAt ASTABLE eATTOP true false 0 65535)).servo_state = eBTOA ∧
    (calculate (channelAt ASTABLE eATTOP true false 0 65535)).rising = false ∧
    (calculate (channelAt ASTABLE eATTOP true false 0 65535)).phasor = 65535 :=
  C19_at_top_falls_through (channelAt ASTABLE eATTOP true false 0 65535) (Or.inr rfl) rfl

/-! ## The bistable rise to AT_TOP -/

theorem bistableFSM_IDLE_trig (s : FSM_STATUS) (hst : s.servo_state = eIDLE)
    (ht : s.trigger = true) :
    (bistableFSM s).servo_state = eATOB ∧ (bistableFSM s).rising = true ∧
    (bistableFSM s).phasor = s.phasor := by
  unfold bistableFSM
  rw [hst]
  simp [ht]

theorem bistableFSM_ATOB_hold (s : FSM_STATUS) (hst : s.servo_state = eATOB)
    (hr : s.rising = true) (htr : s.trigger = true)
    (hp : 0 ≤ s.phasor ∧ s.phasor ≤ 65535) (htt : 0 ≤ s.travelTime ∧ s.travelTime ≤ 65535) :
    (s.phasor + calcDelta s ≤ 65535 →
      (bistableFSM s).servo_state = eATOB ∧ (bistableFSM s).rising = true ∧
      (bistableFSM s).phasor = s.phasor + calcDelta s) ∧
    (65535 < s.phasor + calcDelta s →
      (bistableFSM s).servo_state = eATTOP ∧ (bistableFSM s).rising = true ∧
      (bistableFSM s).phasor = 65535) := by
  have hd := calcDelta_bounds s htt.1 htt.2
  have hu : unclamped s (calcDelta s) = s.phasor + calcDelta s := by
    unfold unclamped; rw [hr]; rfl
  unfold bistableFSM
  rw [hst]
  simp only [htr, Bool.true_eq_false, if_false]
  rw [calcNextPhasor_eq s _ hp.1 hp.2 (by omega) (by omega), hu]
  constructor
  · intro h
    have h2 : ¬ (s.phasor + calcDelta s > 65535 ∨ s.phasor + calcDelta s < 0) := by omega
    simp only [h2, decide_False, Bool.false_eq_true, if_false]
    refine ⟨hst, hr, ?_⟩
    simp only [max_def, min_def]
    split_ifs <;> omega
  · intro h
    have h2 : s.phasor + calcDelta s > 65535 ∨ s.phasor + calcDelta s < 0 := Or.inl h
    simp only [h2, decide_True, if_true]
    refine ⟨trivial, hr, ?_⟩
    simp only [max_def, min_def]
    split_ifs <;> omega

theorem bistableFSM_ATTOP (s : FSM_STATUS) (hst : s.servo_state = eATTOP) :
    (s.trigger = true →
      (bistableFSM s).servo_state = eATTOP ∧ (bistableFSM s).phasor = s.phasor ∧
      (bistableFSM s).rising = s.rising) ∧
    (s.trigger = false →
      (bistableFSM s).servo_state = eBTOA ∧ (bistableFSM s).phasor = s.phasor ∧
      (bistableFSM s).rising = false) := by
  unfold bistableFSM
  rw [hst]
  constructor <;> intro ht <;> simp [ht, hst]

theorem bistable_rise_tick (t d : Int) (k : Nat) (ht : 0 ≤ t ∧ t ≤ 65535) (hk : 1 ≤ k)
    (hlo : ((k : Int) - 1) * d ≤ 65535) (hhi : 65535 < (k : Int) * d) (hd0 : 0 < d)
    (hcd : ∀ y : FSM_STATUS, y.travelTime = t → calcDelta y = d)
    (x : FSM_STATUS) (n : Nat) (i : Inputs)
    (hi : i.fsmMode = BISTABLE ∧ i.travelTime = t ∧ i.trigger = true)
    (hx : BistableRiseAt d k n x) :
    BistableRiseAt d k (n + 1) (tick x i) := by
  have e : tick x i = bistableFSM (sample i x) := calculate_bistable (sample i x) hi.1
  have hcd1 : calcDelta (sample i x) = d := hcd (sample i x) hi.2.1
  have htt : 0 ≤ (sample i x).travelTime ∧ (sample i x).travelTime ≤ 65535 := by
    have : (sample i x).travelTime = t := hi.2.1
    rw [this]; exact ht
  have htr : (sample i x).trigger = true := hi.2.2
  rw [e]
  rcases hx with h | h | h
  · obtain ⟨hn, hst, hp⟩ := h
    have h3 := bistableFSM_IDLE_trig (sample i x) hst htr
    refine Or.inr (Or.inl ⟨by omega, by omega, h3.1, h3.2.1, ?_⟩)
    rw [h3.2.2]
    show x.phasor = _
    rw [hp, hn]; simp
  · obtain ⟨h1, h2, hst, hr, hp⟩ := h
    obtain ⟨m, rfl⟩ : ∃ m, n = m + 1 := ⟨n - 1, by omega⟩
    have hp2 : x.phasor = (m : Int) * d := by rw [hp]; simp
    have hmk : (m : Int) ≤ (k : Int) - 1 := by omega
    have hle : (m : Int) * d ≤ ((k : Int) - 1) * d := mul_le_mul_of_nonneg_right hmk hd0.le
    have hm0 : 0 ≤ (m : Int) * d := mul_nonneg (by omega) hd0.le
    have hpr : 0 ≤ (sample i x).phasor ∧ (sample i x).phasor ≤ 65535 := by
      show 0 ≤ x.phasor ∧ x.phasor ≤ 65535
      rw [hp2]; exact ⟨hm0, by linarith⟩
    have hstep := bistableFSM_ATOB_hold (sample i x) hst hr htr hpr htt
    rw [hcd1] at hstep
    have hph : (sample i x).phasor = (m : Int) * d := hp2
    rw [hph] at hstep
    by_cases hlast : m + 1 = k
    · have hk2 : (k : Int) = (m : Int) + 1 := by omega
      have hdone : 65535 < (m : Int) * d + d := by rw [hk2] at hhi; linarith
      have h3 := hstep.2 hdone
      exact Or.inr (Or.inr ⟨by omega, h3.1, h3.2.2⟩)
    · have hmk2 : (m : Int) + 1 ≤ (k : Int) - 1 := by omega
      have hle2 : ((m : Int) + 1) * d ≤ ((k : Int) - 1) * d :=
        mul_le_mul_of_nonneg_right hmk2 hd0.le
      have hnot : (m : Int) * d + d ≤ 65535 := by linarith
      have h3 := hstep.1 hnot
      refine Or.inr (Or.inl ⟨by omega, by omega, h3.1, h3.2.1, ?_⟩)
      rw [h3.2.2]
      have : m + 1 + 1 - 1 = m + 1 := by omega
      rw [this]; push_cast; ring
  · obtain ⟨h1, hst, hp⟩ := h
    have h3 := (bistableFSM_ATTOP (sample i x) hst).1 htr
    exact Or.inr (Or.inr ⟨by omega, h3.1, h3.2.1.trans hp⟩)

theorem bistable_rise (t d : Int) (k : Nat) (ht : 0 ≤ t ∧ t ≤ 65535) (hk : 1 ≤ k)
    (hlo : ((k : Int) - 1) * d ≤ 65535) (hhi : 65535 < (k : Int) * d) (hd0 : 0 < d)
    (hcd : ∀ y : FSM_STATUS, y.travelTime = t → calcDelta y = d)
    (s : FSM_STATUS) (hs : s.servo_state = eIDLE) (hp : s.phasor = 0) (ins : List Inputs) :
    (∀ i ∈ ins, i.fsmMode = BISTABLE ∧ i.travelTime = t ∧ i.trigger = true) →
    BistableRiseAt d k ins.length (run s ins) := by
  induction ins using List.reverseRecOn with
  | nil =>
    intro _
    exact Or.inl ⟨rfl, hs, hp⟩
  | append_singleton l i ih =>
    intro hins
    rw [List.length_append, List.length_singleton, run_snoc]
    exact bistable_rise_tick t d k ht hk hlo hhi hd0 hcd _ _ i
      (hins i (List.mem_append_right _ (List.mem_singleton_self i)))
      (ih (fun j hj => hins j (List.mem_append_left _ hj)))

/-- C18: in BISTABLE mode, with travelTime `t` in [0, 65535] held constant, starting from
IDLE with phasor 0 and trigger true at every tick, with `d = calcDelta(t)` and
`k = floor(65535 / d) + 1`: after `1 + k` ticks the state is AT_TOP with phasor 65535, and
not AT_TOP after fewer ticks; after every further tick with trigger true the state is
still AT_TOP with phasor 65535; and the first tick with trigger false from there yields
B_TO_A with rising false. -/
theorem C18_bistable_reaches_and_holds_AT_TOP (s : FSM_STATUS) (t d : Int) (k : Nat)
    (ins : List Inputs) (rel : Inputs)
    (ht : 0 ≤ t ∧ t ≤ 65535)
    (hd : d = calcDelta { s with travelTime := t })
    (hk : k = (65535 / d).toNat + 1)
    (hs : s.servo_state = eIDLE) (hp : s.phasor = 0)
    (hins : ∀ i ∈ ins, i.fsmMode = BISTABLE ∧ i.travelTime = t ∧ i.trigger = true)
    (hrel : rel.fsmMode = BISTABLE ∧ rel.trigger = false) :
    (ins.length = 1 + k →
      (run s ins).servo_state = eATTOP ∧ (run s ins).phasor = 65535) ∧
    (ins.length < 1 + k → (run s ins).servo_state ≠ eATTOP) ∧
    (1 + k ≤ ins.length →
      (run s ins).servo_state = eATTOP ∧ (run s ins).phasor = 65535) ∧
    (1 + k ≤ ins.length →
      (tick (run s ins) rel).servo_state = eBTOA ∧ (tick (run s ins) rel).rising = false) := by
  have hb := calcDelta_bounds { s with travelTime := t } ht.1 ht.2
  rw [← hd] at hb
  have hd0 : 0 < d := by omega
  have hq : 0 ≤ 65535 / d := Int.ediv_nonneg (by omega) hd0.le
  have hkq : (k : Int) = 65535 / d + 1 := by rw [hk]; push_cast; rw [Int.toNat_of_nonneg hq]
  have hk1 : 1 ≤ k := by omega
  have hlo : ((k : Int) - 1) * d ≤ 65535 := by
    have e : (k : Int) - 1 = 65535 / d := by omega
    rw [e]; exact Int.ediv_mul_le 65535 (by omega)
  have hhi : 65535 < (k : Int) * d := by
    rw [hkq]; exact Int.lt_ediv_add_one_mul_self 65535 hd0
  have hcd : ∀ y : FSM_STATUS, y.travelTime = t → calcDelta y = d := by
    intro y hy
    rw [hd]
    exact calcDelta_congr _ _ hy
  have traj : BistableRiseAt d k ins.length (run s ins) :=
    bistable_rise t d k ht hk1 hlo hhi hd0 hcd s hs hp ins hins
  have top : 1 + k ≤ ins.length →
      (run s ins).servo_state = eATTOP ∧ (run s ins).phasor = 65535 := by
    intro hlen
    rcases traj with h | h | h
    · omega
    · omega
    · exact h.2
  refine ⟨fun hlen => top (by omega), ?_, top, ?_⟩
  · intro hlen
    rcases traj with h | h | h
    · rw [h.2.1]; decide
    · rw [h.2.2.1]; decide
    · omega
  · intro hlen
    have e : tick (run s ins) rel = bistableFSM (sample rel (run s ins)) :=
      calculate_bistable (sample rel (run s ins)) hrel.1
    have h3 := (bistableFSM_ATTOP (sample rel (run s ins)) (top hlen).1).2 hrel.2
    rw [e]
    exact ⟨h3.1, h3.2.2⟩

/-- C18, at travelTime 0xf000 (step 16384, `k = 4`): five ticks with trigger true take the
zeroed record to AT_TOP with phasor 65535, and releasing the trigger then gives B_TO_A. -/
theorem C18_bistable_reaches_and_holds_AT_TOP_witness :
    ((run (initChannel BISTABLE)
        (List.replicate 5 (fullRange 61440 true BISTABLE))).servo_state = eATTOP ∧
      (run (initChannel BISTABLE)
        (List.replicate 5 (fullRange 61440 true BISTABLE))).phasor = 65535) ∧
    ((tick (run (initChannel BISTABLE) (List.replicate 5 (fullRange 61440 true BISTABLE)))
        (fullRange 61440 false BISTABLE)).servo_state = eBTOA ∧
      (tick (run (initChannel BISTABLE) (List.replicate 5 (fullRange 61440 true BISTABLE)))
        (fullRange 61440 false BISTABLE)).rising = false) :=
  have h := C18_bistable_reaches_and_holds_AT_TOP (initChannel BISTABLE) 61440 16384 4
    (List.replicate 5 (fullRange 61440 true BISTABLE)) (fullRange 61440 false BISTABLE)
    (by decide) (by decide) (by decide) rfl rfl
    (by
      intro i hi
      rw [List.eq_of_mem_replicate hi]
      exact ⟨rfl, rfl, rfl⟩)
    ⟨rfl, rfl⟩
  ⟨h.1 rfl, h.2.2.2 (by decide)⟩

/-! ## `calcDelta` grows with travelTime -/

theorem deltaOf_step : ∀ h : Fin 255,
    deltaOf (h.val / 16) (h.val % 16) ≤ deltaOf ((h.val + 1) / 16) ((h.val + 1) % 16) := by
  decide

theorem deltaOf_mono (a b : Nat) (hab : a ≤ b) (hb : b ≤ 255) :
    deltaOf (a / 16) (a % 16) ≤ deltaOf (b / 16) (b % 16) := by
  induction b, hab using Nat.le_induction with
  | base => exact le_refl _
  | succ n _ ih =>
    exact le_trans (ih (by omega)) (deltaOf_step ⟨n, by omega⟩)

theorem calcDelta_eq_high_byte (s : FSM_STATUS) (h0 : 0 ≤ s.travelTime)
    (h1 : s.travelTime ≤ 65535) :
    calcDelta s = deltaOf ((s.travelTime / 256).toNat / 16) ((s.travelTime / 256).toNat % 16) := by
  rw [calcDelta_eq_deltaOf s h0 h1]
  have e1 : (s.travelTime / 4096).toNat = (s.travelTime / 256).toNat / 16 := by omega
  have e2 : (s.travelTime / 256 % 16).toNat = (s.travelTime / 256).toNat % 16 := by omega
  rw [e1, e2]

/-- C20: `calcDelta` is monotonically non-decreasing in travelTime over [0, 65535], also
across table-index boundaries; it is 437 at travelTime 0 and 25594 at travelTime 65535, so
it always lies in [437, 25594]: strictly positive and within a signed 16-bit integer. -/
theorem C20_calcDelta_monotone (s r : FSM_STATUS)
    (hs : 0 ≤ s.travelTime ∧ s.travelTime ≤ 65535)
    (hr : 0 ≤ r.travelTime ∧ r.travelTime ≤ 65535)
    (hle : s.travelTime ≤ r.travelTime) :
    calcDelta s ≤ calcDelta r ∧
    (s.travelTime = 0 → calcDelta s = 437) ∧
    (r.travelTime = 65535 → calcDelta r = 25594) ∧
    (437 ≤ calcDelta s ∧ calcDelta s ≤ 25594) ∧
    (0 < calcDelta s ∧ calcDelta s ≤ 32767) := by
  have hbs := calcDelta_bounds s hs.1 hs.2
  refine ⟨?_, ?_, ?_, hbs, by omega, by omega⟩
  · rw [calcDelta_eq_high_byte s hs.1 hs.2, calcDelta_eq_high_byte r hr.1 hr.2]
    exact deltaOf_mono _ _ (by omega) (by omega)
  · intro h0
    rw [calcDelta_eq_deltaOf s hs.1 hs.2, h0]
    decide
  · intro h1
    rw [calcDelta_eq_deltaOf r hr.1 hr.2, h1]
    decide

/-- C20, across the boundary between table indices 8 and 9: travelTime 0x8fff gives 4297
and travelTime 0x9000 gives 4369. -/
theorem C20_calcDelta_monotone_witness :
    calcDelta (channelAt ASTABLE eIDLE false false 36863 0) = 4297 ∧
    calcDelta (channelAt ASTABLE eIDLE false false 36864 0) = 4369 ∧
    calcDelta (channelAt ASTABLE eIDLE false false 36863 0) ≤
      calcDelta (channelAt ASTABLE eIDLE false false 36864 0) :=
  ⟨by decide, by decide,
    (C20_calcDelta_monotone (channelAt ASTABLE eIDLE false false 36863 0)
      (channelAt ASTABLE eIDLE false false 36864 0) (by decide) (by decide) (by decide)).1⟩

/-! ## WAIT_TO_RESET outside the one-shot machine -/

theorem astableFSM_WAIT (s : FSM_STATUS) (hs : s.servo_state = eWAIT_TO_RESET) :
    (astableFSM s).servo_state = eWAIT_TO_RESET ∧ (astableFSM s).phasor = s.phasor ∧
    (astableFSM s).rising = s.rising := by
  unfold astableFSM
  rw [hs]
  exact ⟨hs, rfl, rfl⟩

theorem bistableFSM_WAIT (s : FSM_STATUS) (hs : s.servo_state = eWAIT_TO_RESET) :
    (bistableFSM s).servo_state = eWAIT_TO_RESET ∧ (bistableFSM s).phasor = s.phasor ∧
    (bistableFSM s).rising = s.rising := by
  unfold bistableFSM
  rw [hs]
  exact ⟨hs, rfl, rfl⟩

theorem calculate_WAIT (s : FSM_STATUS) (hm : s.fsmMode = ASTABLE ∨ s.fsmMode = BISTABLE)
    (hs : s.servo_state = eWAIT_TO_RESET) :
    (calculate s).servo_state = eWAIT_TO_RESET ∧ (calculate s).phasor = s.phasor ∧
    (calculate s).rising = s.rising := by
  rcases hm with h | h
  · rw [calculate_astable s h]; exact astableFSM_WAIT s hs
  · rw [calculate_bistable s h]; exact bistableFSM_WAIT s hs

/-- C21: in ASTABLE mode and in BISTABLE mode, for every trigger value, travelTime and
phasor, one tick from WAIT_TO_RESET leaves servo_state = WAIT_TO_RESET and leaves phasor
and rising unchanged; hence a channel that is in WAIT_TO_RESET (as ONESHOT leaves it) and
is then run in ASTABLE or BISTABLE mode is still in WAIT_TO_RESET, with the same phasor
and rising, after every sequence of ticks, whatever the triggers are. -/
theorem C21_wait_to_reset_absorbing (s : FSM_STATUS) (ins : List Inputs)
    (hm : s.fsmMode = ASTABLE ∨ s.fsmMode = BISTABLE)
    (hs : s.servo_state = eWAIT_TO_RESET)
    (hins : ∀ i ∈ ins, i.fsmMode = ASTABLE ∨ i.fsmMode = BISTABLE) :
    ((calculate s).servo_state = eWAIT_TO_RESET ∧ (calculate s).phasor = s.phasor ∧
      (calculate s).rising = s.rising) ∧
    ((run s ins).servo_state = eWAIT_TO_RESET ∧ (run s ins).phasor = s.phasor ∧
      (run s ins).rising = s.rising) := by
  refine ⟨calculate_WAIT s hm hs, ?_⟩
  clear hm
  induction ins generalizing s with
  | nil => exact ⟨hs, rfl, rfl⟩
  | cons i rest ih =>
    have hi := hins i (List.mem_cons_self _ _)
    have hstep : (tick s i).servo_state = eWAIT_TO_RESET ∧ (tick s i).phasor = s.phasor ∧
        (tick s i).rising = s.rising := calculate_WAIT (sample i s) hi hs
    rw [run_cons]
    have h2 := ih (tick s i) hstep.1 (fun j hj => hins j (List.mem_cons_of_mem _ hj))
    exact ⟨h2.1, h2.2.1.trans hstep.2.1, h2.2.2.trans hstep.2.2⟩

/-- C21, from the end of a one-shot excursion (nine ONESHOT ticks at travelTime 0xf000
reach WAIT_TO_RESET): one tick in ASTABLE mode, then ticks in BISTABLE and ASTABLE mode
with the trigger released and asserted again, leave the channel in WAIT_TO_RESET with
phasor 0. -/
theorem C21_wait_to_reset_absorbing_witness :
    (run (initChannel ONESHOT)
      (List.replicate 9 (fullRange 61440 true ONESHOT))).servo_state = eWAIT_TO_RESET ∧
    (run (channelAt ASTABLE eWAIT_TO_RESET false true 61440 0)
      [fullRange 61440 false BISTABLE, fullRange 61440 true BISTABLE,
       fullRange 0 false ASTABLE, fullRange 0 true ASTABLE]).servo_state = eWAIT_TO_RESET ∧
    (run (channelAt ASTABLE eWAIT_TO_RESET false true 61440 0)
      [fullRange 61440 false BISTABLE, fullRange 61440 true BISTABLE,
       fullRange 0 false ASTABLE, fullRange 0 true ASTABLE]).phasor = 0 :=
  have h := (C21_wait_to_reset_absorbing (channelAt ASTABLE eWAIT_TO_RESET false true 61440 0)
    [fullRange 61440 false BISTABLE, fullRange 61440 true BISTABLE,
     fullRange 0 false ASTABLE, fullRange 0 true ASTABLE]
    (Or.inl rfl) rfl
    (by
      intro i hi
      simp only [List.mem_cons, List.mem_singleton, List.not_mem_nil, or_false] at hi
      rcases hi with rfl | rfl | rfl | rfl <;> decide)).2
  ⟨by decide, h.1, h.2.1⟩

end G2G_FSM
